import Mathlib

/-!
Syslog collector (client/driver/syslog/collector.go).

A shallow embedding of the collector: free-port discovery, the launch sequence,
the bridge pump that copies record contents into the pipe, the file-size
conversion, and the `Exit` / `UpdateLogConfig` stubs.

Calls into packages outside the file (`net`, `go-syslog`, `logrotator`, `io`)
are answered by an environment `Env` of arbitrary outcomes; every effect the
collector performs is appended to a trace and every resource it opens is kept
in the list of open resources of the `World`.
-/

namespace Syslog

/-! ## Data model -/

/-- A Go `error` value: either built by `fmt.Errorf` in collector.go, or handed
back by one of the packages the collector calls. -/
inductive GoError
  | errorf (msg : String)
  | lib (code : Nat)
deriving DecidableEq, Repr

/-- A resolved TCP address (`*net.TCPAddr`). -/
structure TCPAddr where
  ip : String
  port : Nat
deriving DecidableEq, Repr

/-- The text `addr.String()` of an address, `ip:port`. -/
def TCPAddr.addrString (a : TCPAddr) : String :=
  a.ip ++ ":" ++ toString a.port

/-- Resources the collector can hold open. -/
inductive Resource
  | listener (addr : TCPAddr)
  | pipe
deriving DecidableEq, Repr

/-- Effects performed by the collector, in program order: `resolve` is a call
of `net.ResolveTCPAddr` for `localhost:<port>` and whether it succeeded,
`listen` a call of `net.ListenTCP` and whether it succeeded, `close` the
deferred `l.Close()` of the probe, `serverListen` the call
`s.server.ListenTCP`, `serverBoot` the call `s.server.Boot()`, `pipe` the call
`io.Pipe()`, `newLogRotator` the call of the sink constructor with its
arguments, `goSink` the statement `go lro.Start(r)`, `goPump` the start of the
bridge pump goroutine, `goWait` the statement `go s.server.Wait()`. -/
inductive Event
  | resolve (port : Nat) (ok : Bool)
  | listen (addr : TCPAddr) (ok : Bool)
  | close (addr : TCPAddr)
  | serverListen (addr : String) (ok : Bool)
  | serverBoot (ok : Bool)
  | pipe
  | newLogRotator (path file : String) (maxFiles size : Int) (ok : Bool)
  | goSink
  | goPump
  | goWait
deriving DecidableEq, Repr

/-- Outcomes of the calls that leave collector.go. `resolve i` answers
`net.ResolveTCPAddr("tcp", "localhost:<i>")`; `listen a` answers
`net.ListenTCP("tcp", a)` with either an error or the address `l.Addr()` of the
new listener; `serverListen s` answers `server.ListenTCP(s)` the same way;
`boot` answers `server.Boot()`; `newLogRotator` answers the constructor of the
rotating sink. -/
structure Env where
  resolve : Nat → Except GoError TCPAddr
  listen : TCPAddr → Except GoError TCPAddr
  serverListen : String → Except GoError TCPAddr
  boot : Option GoError
  newLogRotator : String → String → Int → Int → Option GoError

/-- What the process holds open and what it has done so far. -/
structure World where
  res : List Resource
  trace : List Event
deriving DecidableEq, Repr

/-- Append an effect to the trace. -/
def World.emit (w : World) (e : Event) : World :=
  { w with trace := w.trace ++ [e] }

/-- Take a resource. -/
def World.acquire (w : World) (r : Resource) : World :=
  { w with res := r :: w.res }

/-- Give a resource back. -/
def World.release (w : World) (r : Resource) : World :=
  { w with res := w.res.erase r }

/-! ## getFreePort -/

/-- The error of line 130. -/
def noFreePort : GoError := GoError.errorf "No free port found"

/-- The `for i := lowerBound; i <= upperBound; i++` loop of `getFreePort`, with
`i` a Go `uint` of `bits` bits (the increment wraps modulo `2 ^ bits`). One
unit of fuel is one evaluation of the loop condition; `none` means the fuel ran
out before the loop returned. The deferred `l.Close()` runs after `l.Addr()`
has been evaluated. -/
def getFreePortLoop (env : Env) (bits upperBound : Nat) :
    Nat → Nat → World → Option (Except GoError TCPAddr × World)
  | 0, _, _ => none
  | fuel + 1, i, w =>
    if i ≤ upperBound then
      match env.resolve i with
      | .error err => some (.error err, w.emit (.resolve i false))
      | .ok addr =>
        match env.listen addr with
        | .error _ =>
          getFreePortLoop env bits upperBound fuel ((i + 1) % 2 ^ bits)
            ((w.emit (.resolve i true)).emit (.listen addr false))
        | .ok la =>
          some (.ok la,
            (((((w.emit (.resolve i true)).emit (.listen addr true)).acquire
              (.listener la)).release (.listener la)).emit (.close la)))
    else some (.error noFreePort, w)

/-- The method `getFreePort(lowerBound, upperBound)`. -/
def getFreePort (env : Env) (bits fuel lowerBound upperBound : Nat) (w : World) :
    Option (Except GoError TCPAddr × World) :=
  getFreePortLoop env bits upperBound fuel lowerBound w

/-! ## Launch context and collector -/

/-- Modelled from the spec: the log-rotation policy `structs.LogConfig`,
declared outside collector.go: a maximum file count and a maximum file size in
MB, both integers (Go `int`, of the platform's word size). -/
structure LogConfig where
  MaxFiles : Int
  MaxFileSizeMB : Int
deriving DecidableEq, Repr

/-- Modelled from the spec: the directory-resolution handle `allocdir.AllocDir`,
declared outside collector.go, of which collector.go reads the map `TaskDirs`
from task name to task directory; the map is kept as a key/value list read
with `List.lookup`, an absent key being the not-found signal. -/
structure AllocDir where
  TaskDirs : List (String × String)
deriving DecidableEq, Repr

/-- The launch context `LogCollectorContext` (its two pointers are non-nil). -/
structure LogCollectorContext where
  TaskName : String
  AllocDir : AllocDir
  LogConfig : LogConfig
  PortUpperBound : Nat
  PortLowerBound : Nat
deriving DecidableEq, Repr

/-- The result `SyslogCollectorState` of a successful launch. -/
structure SyslogCollectorState where
  Addr : String
deriving DecidableEq, Repr

/-- The `syslog.Server` held by the collector: the listeners it has bound and
whether it has been booted. -/
structure Server where
  listeners : List TCPAddr
  booted : Bool
deriving DecidableEq, Repr

/-- The fields of `SyslogCollector` that collector.go assigns (`addr`,
`logConfig`, `lro` and `lre` are never written). -/
structure SyslogCollector where
  ctx : Option LogCollectorContext
  server : Option Server
  taskDir : String
deriving DecidableEq, Repr

/-- The collector built by `NewSyslogCollector`. -/
def NewSyslogCollector : SyslogCollector :=
  { ctx := none, server := none, taskDir := "" }

/-- The error of line 109. -/
def taskDirNotFound (taskName : String) : GoError :=
  GoError.errorf ("couldn't find task directory for task " ++ taskName)

/-- The method `configureTaskDir`: look the task up in `TaskDirs`, store the
directory or return the error. `none` stands for the nil dereference of a
collector without context. -/
def configureTaskDir (s : SyslogCollector) : Option (SyslogCollector × Option GoError) :=
  match s.ctx with
  | none => none
  | some ctx =>
    match ctx.AllocDir.TaskDirs.lookup ctx.TaskName with
    | none => some (s, some (taskDirNotFound ctx.TaskName))
    | some taskDir => some ({ s with taskDir := taskDir }, none)

/-- Two's-complement wrap of an integer into a signed word of `bits` bits. -/
def wrapInt (bits : Nat) (x : Int) : Int :=
  (x + 2 ^ (bits - 1)) % 2 ^ bits - 2 ^ (bits - 1)

/-- Line 78: `int64(ctx.LogConfig.MaxFileSizeMB * 1024 * 1024)`, the two
multiplications done in Go `int` arithmetic of `bits` bits. -/
def logFileSize (bits : Nat) (maxFileSizeMB : Int) : Int :=
  wrapInt 64 (wrapInt bits (wrapInt bits (maxFileSizeMB * 1024) * 1024))

/-- Modelled from the spec: the constant `allocdir.TaskLocal`, declared outside
collector.go; the sink is built against `<taskDir>/local/<taskName>.stdout`. -/
def TaskLocal : String := "local"

/-- Cut a path at its slashes; `cur` holds the characters of the element being
read, last first. -/
def splitSlash : List Char → List Char → List (List Char)
  | cur, [] => [cur.reverse]
  | cur, c :: cs => if c = '/' then cur.reverse :: splitSlash [] cs else splitSlash (c :: cur) cs

/-- One element of `filepath.Clean`: empty elements and `.` are dropped, `..`
removes the element before it (at the root it is dropped, at the start of a
relative path it is kept). `stack` holds the elements kept so far, last first. -/
def cleanStep (rooted : Bool) (stack : List (List Char)) (comp : List Char) :
    List (List Char) :=
  if comp = [] ∨ comp = ['.'] then stack
  else if comp = ['.', '.'] then
    match stack with
    | [] => if rooted then [] else [comp]
    | top :: rest => if top = ['.', '.'] then comp :: stack else rest
  else comp :: stack

/-- The call `filepath.Clean(path)` with `/` as separator. -/
def filepathClean (path : String) : String :=
  let rooted : Bool := path.data.head? = some '/'
  let comps := (splitSlash [] path.data).foldl (cleanStep rooted) []
  let body := String.mk (List.intercalate ['/'] comps.reverse)
  if rooted then "/" ++ body else if comps = [] then "." else body

/-- The call `filepath.Join(dir, name)`: empty elements are ignored, the rest is
joined with `/` and cleaned; two empty elements give the empty string. -/
def filepathJoin (dir name : String) : String :=
  if dir = "" then (if name = "" then "" else filepathClean name)
  else if name = "" then filepathClean dir
  else filepathClean (dir ++ "/" ++ name)

/-- Line 73, `s.server.ListenTCP(addr.String())`: the server binds its own
listener; the error it returns is dropped by the caller. -/
def serverListenTCP (env : Env) (addr : String) (srv : Server) (w : World) : Server × World :=
  match env.serverListen addr with
  | .error _ => (srv, w.emit (.serverListen addr false))
  | .ok la =>
    ({ srv with listeners := la :: srv.listeners },
      (w.emit (.serverListen addr true)).acquire (.listener la))

/-- The method `LaunchCollector`, statement by statement (the log line of line
60 has no effect on the collector). The result is the returned pair (state or
error), the collector after the call and the world after the call; `none`
means the call did not return (the port scan ran out of fuel). -/
def LaunchCollector (env : Env) (bits fuel : Nat) (s : SyslogCollector)
    (ctx : LogCollectorContext) (w : World) :
    Option (Except GoError SyslogCollectorState × SyslogCollector × World) :=
  match getFreePort env bits fuel ctx.PortLowerBound ctx.PortUpperBound w with
  | none => none
  | some (.error err, w1) => some (.error err, s, w1)
  | some (.ok addr, w1) =>
    match configureTaskDir { s with ctx := some ctx } with
    | none => none
    | some (s2, some err) => some (.error err, s2, w1)
    | some (s2, none) =>
      let (srv, w2) := serverListenTCP env addr.addrString { listeners := [], booted := false } w1
      match env.boot with
      | some err =>
        some (.error err, { s2 with server := some srv }, w2.emit (.serverBoot false))
      | none =>
        let s3 : SyslogCollector := { s2 with server := some { srv with booted := true } }
        let w3 := ((w2.emit (.serverBoot true)).emit .pipe).acquire .pipe
        let size := logFileSize bits ctx.LogConfig.MaxFileSizeMB
        let path := filepathJoin s3.taskDir TaskLocal
        let file := ctx.TaskName ++ ".stdout"
        match env.newLogRotator path file ctx.LogConfig.MaxFiles size with
        | some err =>
          some (.error err, s3,
            w3.emit (.newLogRotator path file ctx.LogConfig.MaxFiles size false))
        | none =>
          some (.ok { Addr := addr.addrString }, s3,
            (((w3.emit (.newLogRotator path file ctx.LogConfig.MaxFiles size true)).emit
              .goSink).emit .goPump).emit .goWait)

/-- The method `Exit`: `return nil`. -/
def Exit (s : SyslogCollector) (w : World) : Option GoError × SyslogCollector × World :=
  (none, s, w)

/-- The method `UpdateLogConfig`: `return nil`. -/
def UpdateLogConfig (s : SyslogCollector) (_logConfig : LogConfig) (w : World) :
    Option GoError × SyslogCollector × World :=
  (none, s, w)

/-! ## Bridge pump -/

/-- A byte, a number below 256. -/
abbrev Byte := Fin 256

/-- A Go `interface{}` value found in a record. -/
inductive Value
  | str (s : List Byte)
  | int (n : Int)
  | bytes (b : List Byte)
  | nil
deriving DecidableEq, Repr

/-- A record `syslogparser.LogParts`, a `map[string]interface{}` kept as a
key/value list read with `List.lookup`. -/
abbrev LogParts := List (String × Value)

/-- How the pump goroutine ends: the channel was drained, or the type
assertion of line 89 failed. Either way `writes` holds the argument of every
`w.Write` call made, in order. -/
inductive PumpResult
  | drained (writes : List (List Byte))
  | panicked (writes : List (List Byte))
deriving DecidableEq, Repr

/-- The goroutine of lines 87-92 run over the records delivered on the
channel: `message := logParts["content"].(string); w.Write([]byte(message))`. -/
def bridgePump : List LogParts → List (List Byte) → PumpResult
  | [], writes => .drained writes
  | logParts :: rest, writes =>
    match logParts.lookup "content" with
    | some (.str message) => bridgePump rest (writes ++ [message])
    | _ => .panicked writes

/-- The bytes that went into the pipe: the written chunks back to back. -/
def PumpResult.bytes : PumpResult → List Byte
  | .drained writes => writes.flatten
  | .panicked writes => writes.flatten

/-- The bytes of a Go string literal (its UTF-8 encoding). -/
def goString (s : String) : List Byte :=
  s.toUTF8.data.toList.map (fun b => Fin.ofNat b.toNat)

/-! ## Vocabulary of the properties -/

/-- Address resolution succeeds for port `p`. -/
def Env.resolves (env : Env) (p : Nat) : Bool :=
  match env.resolve p with
  | .ok _ => true
  | .error _ => false

/-- Port `p` is free: address resolution and the probe bind both succeed. -/
def Env.isFree (env : Env) (p : Nat) : Bool :=
  match env.resolve p with
  | .ok addr =>
    match env.listen addr with
    | .ok _ => true
    | .error _ => false
  | .error _ => false

/-- The ports probed in a stretch of trace, one per loop iteration, in order. -/
def probedPorts : List Event → List Nat
  | [] => []
  | .resolve p _ :: es => p :: probedPorts es
  | _ :: es => probedPorts es

/-- The bind attempts (`net.ListenTCP` and `server.ListenTCP`) in a stretch of trace. -/
def bindAttempts : List Event → Nat
  | [] => 0
  | .listen _ _ :: es => bindAttempts es + 1
  | .serverListen _ _ :: es => bindAttempts es + 1
  | _ :: es => bindAttempts es

/-- Events of the port scan: resolve, probe bind, probe close. -/
def Event.isScan : Event → Bool
  | .resolve _ _ => true
  | .listen _ _ => true
  | .close _ => true
  | _ => false

/-! ## Concrete environments and inputs -/

/-- The loopback address with the given port. -/
def loopback (port : Nat) : TCPAddr := { ip := "127.0.0.1", port := port }

/-- The empty world: nothing open, nothing done. -/
def World.empty : World := { res := [], trace := [] }

/-- An environment in which only port 9000 is taken: every port resolves, the
probe fails on 9000 and succeeds elsewhere; the server binds 9001; boot and
sink construction succeed. -/
def envBusy9000 : Env :=
  { resolve := fun i => .ok (loopback i)
    listen := fun a => if a.port = 9000 then .error (.lib 98) else .ok a
    serverListen := fun s =>
      if s = "127.0.0.1:9001" then .ok (loopback 9001) else .error (.lib 98)
    boot := none
    newLogRotator := fun _ _ _ _ => none }

/-- An environment in which `localhost:9000` does not resolve; every other
port resolves and can be bound. -/
def envUnresolved9000 : Env :=
  { resolve := fun i => if i = 9000 then .error (.lib 1) else .ok (loopback i)
    listen := fun a => .ok a
    serverListen := fun s =>
      if s = "127.0.0.1:9001" then .ok (loopback 9001) else .error (.lib 98)
    boot := none
    newLogRotator := fun _ _ _ _ => none }

/-- An environment in which a bind to port 0 succeeds on a port of the
system's choosing, 49152, and every other port is taken. -/
def envEphemeral : Env :=
  { resolve := fun i => .ok (loopback i)
    listen := fun a => if a.port = 0 then .ok (loopback 49152) else .error (.lib 98)
    serverListen := fun _ => .error (.lib 98)
    boot := none
    newLogRotator := fun _ _ _ _ => none }

/-- An environment shaped like a host on which only port 9000 is taken: ports
up to 65535 resolve and larger ones do not; a bind to port 0 succeeds on a port
of the system's choosing, 49152; a bind to 9000 fails; a bind to any other port
succeeds on that port. -/
def envHost : Env :=
  { resolve := fun i => if i ≤ 65535 then .ok (loopback i) else .error (.lib 22)
    listen := fun a =>
      if a.port = 0 then .ok (loopback 49152)
      else if a.port = 9000 then .error (.lib 98) else .ok a
    serverListen := fun s =>
      if s = "127.0.0.1:9001" then .ok (loopback 9001) else .error (.lib 98)
    boot := none
    newLogRotator := fun _ _ _ _ => none }

/-- The environment `envBusy9000` with a failing sink constructor. -/
def envSinkFails : Env :=
  { envBusy9000 with newLogRotator := fun _ _ _ _ => some (.lib 13) }

/-- A launch context for task `web`, known to the allocation directory, over
the given port range. -/
def ctxWeb (lower upper : Nat) : LogCollectorContext :=
  { TaskName := "web"
    AllocDir := { TaskDirs := [("web", "/alloc/web")] }
    LogConfig := { MaxFiles := 10, MaxFileSizeMB := 10 }
    PortLowerBound := lower
    PortUpperBound := upper }

/-- A launch context for task `db`, which the allocation directory does not know. -/
def ctxUnknownTask (lower upper : Nat) : LogCollectorContext :=
  { ctxWeb lower upper with TaskName := "db" }

/-- The launch context `ctxWeb` with a maximum file size of 2^43 MB. -/
def ctxHugeFile (lower upper : Nat) : LogCollectorContext :=
  { ctxWeb lower upper with LogConfig := { MaxFiles := 10, MaxFileSizeMB := 8796093022208 } }

/-- The record carries a textual `content` field. -/
def hasTextContent (logParts : LogParts) : Bool :=
  match logParts.lookup "content" with
  | some (.str _) => true
  | _ => false

/-- The bytes of a record's textual `content` field (none when it has none). -/
def contentOf (logParts : LogParts) : List Byte :=
  match logParts.lookup "content" with
  | some (.str message) => message
  | _ => []

/-- A well-formed record with the given text as content. -/
def textRecord (s : String) : LogParts := [("content", .str (goString s))]

/-- A record without a `content` field. -/
def severityRecord : LogParts := [("severity", .int 6)]

/-- A record whose `content` field is not textual. -/
def numericRecord : LogParts := [("content", .int 42)]

/-! ## Port scan: helper lemmas -/

theorem probedPorts_append (xs ys : List Event) :
    probedPorts (xs ++ ys) = probedPorts xs ++ probedPorts ys := by
  induction xs with
  | nil => rfl
  | cons e es ih => cases e <;> simp [probedPorts, ih]

theorem bindAttempts_append (xs ys : List Event) :
    bindAttempts (xs ++ ys) = bindAttempts xs + bindAttempts ys := by
  induction xs with
  | nil => simp [bindAttempts]
  | cons e es ih => cases e <;> simp [bindAttempts, ih] <;> omega

/-- Ports that resolve but cannot be bound are stepped over one by one. -/
theorem getFreePortLoop_skip (env : Env) (bits upper : Nat) :
    ∀ (d i : Nat) (w : World),
      (∀ q, i ≤ q → q < i + d → env.resolves q = true ∧ env.isFree q = false) →
      i + d ≤ upper + 1 → i + d < 2 ^ bits →
      ∃ evs : List Event, probedPorts evs = List.range' i d ∧
        (∀ e ∈ evs, e.isScan = true) ∧ (∀ a, Event.listen a true ∉ evs) ∧
        ∀ fuel, getFreePortLoop env bits upper (fuel + d) i w
          = getFreePortLoop env bits upper fuel (i + d) ⟨w.res, w.trace ++ evs⟩ := by
  intro d
  induction d with
  | zero =>
    intro i w _ _ _
    exact ⟨[], rfl, by simp, by simp, fun fuel => by simp⟩
  | succ d ih =>
    intro i w hq hu hb
    obtain ⟨hr, hf⟩ := hq i (le_refl i) (by omega)
    unfold Env.resolves at hr
    unfold Env.isFree at hf
    cases hres : env.resolve i with
    | error err => simp [hres] at hr
    | ok addr =>
      simp only [hres] at hf
      cases hl : env.listen addr with
      | ok la => simp [hl] at hf
      | error err =>
        have hmod : (i + 1) % 2 ^ bits = i + 1 := Nat.mod_eq_of_lt (by omega)
        obtain ⟨evs, hp, hs, hn, hloop⟩ := ih (i + 1)
          ((w.emit (.resolve i true)).emit (.listen addr false))
          (fun q h1 h2 => hq q (by omega) (by omega)) (by omega) (by omega)
        refine ⟨[.resolve i true, .listen addr false] ++ evs, ?_, ?_, ?_, ?_⟩
        · simp [probedPorts, hp, List.range'_succ]
        · intro e he
          simp only [List.mem_append, List.mem_cons, List.mem_singleton, List.not_mem_nil,
            or_false] at he
          rcases he with (rfl | rfl) | he
          · rfl
          · rfl
          · exact hs e he
        · intro a ha
          simp only [List.mem_append, List.mem_cons, List.mem_singleton, List.not_mem_nil,
            or_false] at ha
          rcases ha with (ha | ha) | ha
          · cases ha
          · cases ha
          · exact hn a ha
        · intro fuel
          have h1 : fuel + (d + 1) = (fuel + d) + 1 := by omega
          have h2 : i + (d + 1) = i + 1 + d := by omega
          rw [h1, h2]
          have hi : i ≤ upper := by omega
          simp only [getFreePortLoop, hi, if_true, hres, hl, hmod]
          rw [hloop fuel]
          simp [World.emit, List.append_assoc]

/-- One step of the scan at a port whose resolution fails. -/
theorem getFreePortLoop_unresolved (env : Env) (bits upper fuel i : Nat) (w : World)
    (err : GoError) (hi : i ≤ upper) (hres : env.resolve i = .error err) :
    getFreePortLoop env bits upper (fuel + 1) i w
      = some (.error err, ⟨w.res, w.trace ++ [.resolve i false]⟩) := by
  simp [getFreePortLoop, hi, hres, World.emit]

/-- One step of the scan at a free port: the probe is bound, its address
taken, and the probe closed again. -/
theorem getFreePortLoop_free (env : Env) (bits upper fuel i : Nat) (w : World)
    (addr la : TCPAddr) (hi : i ≤ upper) (hres : env.resolve i = .ok addr)
    (hl : env.listen addr = .ok la) :
    getFreePortLoop env bits upper (fuel + 1) i w
      = some (.ok la,
          ⟨w.res, w.trace ++ [.resolve i true, .listen addr true, .close la]⟩) := by
  simp [getFreePortLoop, hi, hres, hl, World.emit, World.acquire, World.release]

/-- One step of the scan past the upper bound. -/
theorem getFreePortLoop_exhausted (env : Env) (bits upper fuel i : Nat) (w : World)
    (hi : upper < i) :
    getFreePortLoop env bits upper (fuel + 1) i w = some (.error noFreePort, w) := by
  have h : ¬ i ≤ upper := by omega
  simp [getFreePortLoop, h]

/-- Whatever the environment answers, a scan whose upper bound is below the
largest counter value returns, having probed an initial stretch of the range. -/
theorem getFreePortLoop_total (env : Env) (bits upper : Nat) (hu : upper + 1 < 2 ^ bits) :
    ∀ (n i : Nat) (w : World), upper + 1 - i ≤ n →
      ∃ (r : Except GoError TCPAddr) (evs : List Event) (k : Nat),
        k ≤ upper + 1 - i ∧ probedPorts evs = List.range' i k ∧
        bindAttempts evs ≤ k ∧ (∀ e ∈ evs, e.isScan = true) ∧
        ∀ fuel, n < fuel →
          getFreePortLoop env bits upper fuel i w = some (r, ⟨w.res, w.trace ++ evs⟩) := by
  intro n
  induction n with
  | zero =>
    intro i w hn
    refine ⟨.error noFreePort, [], 0, by omega, rfl, by simp [bindAttempts], by simp, ?_⟩
    intro fuel hf
    obtain ⟨f, rfl⟩ : ∃ f, fuel = f + 1 := ⟨fuel - 1, by omega⟩
    rw [getFreePortLoop_exhausted env bits upper f i w (by omega)]
    simp
  | succ n ih =>
    intro i w hn
    by_cases hi : i ≤ upper
    · cases hres : env.resolve i with
      | error err =>
        refine ⟨.error err, [.resolve i false], 1, by omega, by simp [probedPorts],
          by simp [bindAttempts], by simp [Event.isScan], ?_⟩
        intro fuel hf
        obtain ⟨f, rfl⟩ : ∃ f, fuel = f + 1 := ⟨fuel - 1, by omega⟩
        exact getFreePortLoop_unresolved env bits upper f i w err hi hres
      | ok addr =>
        cases hl : env.listen addr with
        | ok la =>
          refine ⟨.ok la, [.resolve i true, .listen addr true, .close la], 1, by omega,
            by simp [probedPorts], by simp [bindAttempts], by simp [Event.isScan], ?_⟩
          intro fuel hf
          obtain ⟨f, rfl⟩ : ∃ f, fuel = f + 1 := ⟨fuel - 1, by omega⟩
          exact getFreePortLoop_free env bits upper f i w addr la hi hres hl
        | error err =>
          obtain ⟨r, evs, k, hk, hp, hb, hs, hloop⟩ := ih (i + 1)
            ((w.emit (.resolve i true)).emit (.listen addr false)) (by omega)
          have hmod : (i + 1) % 2 ^ bits = i + 1 := Nat.mod_eq_of_lt (by omega)
          refine ⟨r, [.resolve i true, .listen addr false] ++ evs, k + 1, by omega, ?_, ?_, ?_, ?_⟩
          · simp [probedPorts, hp, List.range'_succ]
          · simp [bindAttempts]
            omega
          · intro e he
            simp only [List.mem_append, List.mem_cons, List.mem_singleton, List.not_mem_nil,
              or_false] at he
            rcases he with (rfl | rfl) | he
            · rfl
            · rfl
            · exact hs e he
          · intro fuel hf
            obtain ⟨f, rfl⟩ : ∃ f, fuel = f + 1 := ⟨fuel - 1, by omega⟩
            simp only [getFreePortLoop, hi, if_true, hres, hl, hmod]
            rw [hloop f (by omega)]
            simp [World.emit, List.append_assoc]
    · refine ⟨.error noFreePort, [], 0, by omega, rfl, by simp [bindAttempts], by simp, ?_⟩
      intro fuel hf
      obtain ⟨f, rfl⟩ : ∃ f, fuel = f + 1 := ⟨fuel - 1, by omega⟩
      rw [getFreePortLoop_exhausted env bits upper f i w (by omega)]
      simp

/-- Whenever the scan returns, it has only appended scan events and it holds
the same resources as before: the one probe it may have bound is closed. -/
theorem getFreePortLoop_returns (env : Env) (bits upper : Nat) :
    ∀ (fuel i : Nat) (w : World) (r : Except GoError TCPAddr) (w1 : World),
      getFreePortLoop env bits upper fuel i w = some (r, w1) →
      w1.res = w.res ∧ ∃ evs : List Event, w1.trace = w.trace ++ evs ∧
        (∀ e ∈ evs, e.isScan = true) := by
  intro fuel
  induction fuel with
  | zero => intro i w r w1 h; simp [getFreePortLoop] at h
  | succ f ih =>
    intro i w r w1 h
    by_cases hi : i ≤ upper
    · cases hres : env.resolve i with
      | error err =>
        rw [getFreePortLoop_unresolved env bits upper f i w err hi hres] at h
        simp only [Option.some.injEq, Prod.mk.injEq] at h
        obtain ⟨_, rfl⟩ := h
        exact ⟨rfl, [.resolve i false], rfl, by simp [Event.isScan]⟩
      | ok addr =>
        cases hl : env.listen addr with
        | ok la =>
          rw [getFreePortLoop_free env bits upper f i w addr la hi hres hl] at h
          simp only [Option.some.injEq, Prod.mk.injEq] at h
          obtain ⟨_, rfl⟩ := h
          exact ⟨rfl, [.resolve i true, .listen addr true, .close la], rfl,
            by simp [Event.isScan]⟩
        | error err =>
          simp only [getFreePortLoop, hi, if_true, hres, hl] at h
          obtain ⟨hr, evs, ht, hs⟩ := ih _ _ r w1 h
          refine ⟨by simpa [World.emit] using hr,
            [.resolve i true, .listen addr false] ++ evs, ?_, ?_⟩
          · simpa [World.emit, List.append_assoc] using ht
          · intro e he
            simp only [List.mem_append, List.mem_cons, List.mem_singleton, List.not_mem_nil,
              or_false] at he
            rcases he with (rfl | rfl) | he
            · rfl
            · rfl
            · exact hs e he
    · rw [getFreePortLoop_exhausted env bits upper f i w (by omega)] at h
      simp only [Option.some.injEq, Prod.mk.injEq] at h
      obtain ⟨_, rfl⟩ := h
      exact ⟨rfl, [], by simp, by simp⟩

/-! ## Port scan: claims -/

/-- C10: for every lower bound and every upper bound below the largest value of
the `uint` counter, whatever resolution and binding answer, `getFreePort`
returns once given more fuel than the range has ports; the ports it probed are
`lower, lower + 1, ...`, an initial stretch of the range of length at most
`upper + 1 - lower` (nothing when `lower > upper`), so each port is probed at
most once, in ascending order, and the counter never wraps. -/
theorem getFreePort_scan_bounded (env : Env) (bits lower upper : Nat) (w : World)
    (hu : upper + 1 < 2 ^ bits) :
    ∃ (r : Except GoError TCPAddr) (evs : List Event) (k : Nat),
      (∀ fuel, upper + 1 - lower < fuel →
        getFreePort env bits fuel lower upper w = some (r, ⟨w.res, w.trace ++ evs⟩)) ∧
      k ≤ upper + 1 - lower ∧ probedPorts evs = List.range' lower k ∧
      bindAttempts evs ≤ k := by
  obtain ⟨r, evs, k, hk, hp, hb, _, hloop⟩ :=
    getFreePortLoop_total env bits upper hu (upper + 1 - lower) lower w (le_refl _)
  exact ⟨r, evs, k, fun fuel hf => hloop fuel hf, hk, hp, hb⟩

/-- C10 at the range [9000, 9002] on a 64-bit platform, port 9000 taken. -/
theorem getFreePort_scan_bounded_witness :
    9002 + 1 < 2 ^ 64 ∧
    ∃ (r : Except GoError TCPAddr) (evs : List Event) (k : Nat),
      (∀ fuel, 9002 + 1 - 9000 < fuel →
        getFreePort envBusy9000 64 fuel 9000 9002 World.empty
          = some (r, ⟨World.empty.res, World.empty.trace ++ evs⟩)) ∧
      k ≤ 9002 + 1 - 9000 ∧ probedPorts evs = List.range' 9000 k ∧
      bindAttempts evs ≤ k :=
  ⟨by decide, getFreePort_scan_bounded envBusy9000 64 9000 9002 World.empty (by decide)⟩

/-- C1 as stated fails: in the range [9000, 9001] port 9001 is free, yet the
scan stops at 9000, whose address does not resolve, and returns that error
whatever the fuel; no address is returned. It fails also in the range [0, 100]
when the bind to port 0 succeeds on a port of the system's choosing: the
address returned is that of the listener, whose port 49152 is outside the
range. -/
theorem getFreePort_first_fit_counterexample :
    (envUnresolved9000.isFree 9001 = true ∧
      ∀ fuel, getFreePort envUnresolved9000 64 (fuel + 1) 9000 9001 World.empty
        = some (.error (.lib 1), ⟨[], [.resolve 9000 false]⟩)) ∧
    (envEphemeral.isFree 0 = true ∧
      (∀ fuel, getFreePort envEphemeral 64 (fuel + 1) 0 100 World.empty
        = some (.ok (loopback 49152),
            ⟨[], [.resolve 0 true, .listen (loopback 0) true, .close (loopback 49152)]⟩)) ∧
      ¬ (loopback 49152).port ≤ 100) :=
  ⟨⟨by decide, fun fuel =>
      getFreePortLoop_unresolved envUnresolved9000 64 9001 fuel 9000 World.empty (.lib 1)
        (by decide) rfl⟩,
    by decide, fun fuel =>
      getFreePortLoop_free envEphemeral 64 100 fuel 0 World.empty (loopback 0)
        (loopback 49152) (by decide) rfl rfl,
    by decide⟩

/-- C1, amended: if the range [lower, upper] contains a free port, every port
of the range below the first free one resolves, and a probe bound on a port of
the range reports that port as its own, then `getFreePort` returns without
error an address whose port lies in the range, is free, and has no free port
of the range below it; the probe is closed again. -/
theorem getFreePort_first_fit (env : Env) (bits lower upper : Nat) (w : World)
    (hu : upper < 2 ^ bits)
    (hfree : ∃ p, lower ≤ p ∧ p ≤ upper ∧ env.isFree p = true)
    (hres : ∀ q, lower ≤ q → q ≤ upper →
      (∀ r, lower ≤ r → r ≤ q → env.isFree r = false) → env.resolves q = true)
    (hport : ∀ i a la, lower ≤ i → i ≤ upper →
      env.resolve i = .ok a → env.listen a = .ok la → la.port = i) :
    ∃ (addr : TCPAddr) (w1 : World),
      (∀ fuel, upper + 1 - lower < fuel →
        getFreePort env bits fuel lower upper w = some (.ok addr, w1)) ∧
      lower ≤ addr.port ∧ addr.port ≤ upper ∧ env.isFree addr.port = true ∧
      (∀ q, lower ≤ q → q < addr.port → env.isFree q = false) ∧ w1.res = w.res := by
  classical
  have hex : ∃ p, lower ≤ p ∧ env.isFree p = true := by
    obtain ⟨p, h1, _, h3⟩ := hfree
    exact ⟨p, h1, h3⟩
  obtain ⟨p0, hp0l, hp0u, hp0f⟩ := hfree
  have hpl : lower ≤ Nat.find hex := (Nat.find_spec hex).1
  have hpf : env.isFree (Nat.find hex) = true := (Nat.find_spec hex).2
  have hpu : Nat.find hex ≤ upper := le_trans (Nat.find_min' hex ⟨hp0l, hp0f⟩) hp0u
  have hmin : ∀ q, lower ≤ q → q < Nat.find hex → env.isFree q = false := by
    intro q h1 h2
    have := Nat.find_min hex h2
    simp only [not_and, Bool.not_eq_true] at this
    exact this h1
  generalize Nat.find hex = p at hpl hpf hpu hmin
  obtain ⟨d, rfl⟩ : ∃ d, p = lower + d := ⟨p - lower, by omega⟩
  obtain ⟨evs, _, _, _, hskip⟩ := getFreePortLoop_skip env bits upper d lower w
    (fun q h1 h2 => ⟨hres q h1 (by omega) (fun r hr1 hr2 => hmin r hr1 (by omega)),
      hmin q h1 h2⟩) (by omega) (by omega)
  have hpf2 := hpf
  unfold Env.isFree at hpf2
  cases hr : env.resolve (lower + d) with
  | error err => simp [hr] at hpf2
  | ok a =>
    simp only [hr] at hpf2
    cases hl : env.listen a with
    | error err => simp [hl] at hpf2
    | ok la =>
      have hla : la.port = lower + d := hport _ _ _ hpl hpu hr hl
      refine ⟨la, ⟨w.res, (w.trace ++ evs) ++
        [.resolve (lower + d) true, .listen a true, .close la]⟩, ?_, ?_, ?_, ?_, ?_, rfl⟩
      · intro fuel hf
        obtain ⟨f, rfl⟩ : ∃ f, fuel = (f + 1) + d := ⟨fuel - 1 - d, by omega⟩
        unfold getFreePort
        rw [hskip (f + 1)]
        exact getFreePortLoop_free env bits upper f (lower + d) _ a la hpu hr hl
      · omega
      · omega
      · rw [hla]; exact hpf
      · intro q h1 h2
        exact hmin q h1 (by omega)

/-- C1, amended, at the range [9000, 9002] of a host on which port 9000 is
taken and a bind to port 0 lands on a port of the system's choosing: the
hypotheses hold and the scan settles on a port of the range. -/
theorem getFreePort_first_fit_witness :
    (9002 < 2 ^ 64 ∧
      (∃ p, 9000 ≤ p ∧ p ≤ 9002 ∧ envHost.isFree p = true) ∧
      (∀ q, 9000 ≤ q → q ≤ 9002 →
        (∀ r, 9000 ≤ r → r ≤ q → envHost.isFree r = false) →
        envHost.resolves q = true) ∧
      (∀ i a la, 9000 ≤ i → i ≤ 9002 →
        envHost.resolve i = .ok a → envHost.listen a = .ok la → la.port = i)) ∧
    ∃ (addr : TCPAddr) (w1 : World),
      (∀ fuel, 9002 + 1 - 9000 < fuel →
        getFreePort envHost 64 fuel 9000 9002 World.empty = some (.ok addr, w1)) ∧
      9000 ≤ addr.port ∧ addr.port ≤ 9002 ∧ envHost.isFree addr.port = true ∧
      (∀ q, 9000 ≤ q → q < addr.port → envHost.isFree q = false) ∧
      w1.res = World.empty.res := by
  have h1 : (9002 : Nat) < 2 ^ 64 := by decide
  have h2 : ∃ p, 9000 ≤ p ∧ p ≤ 9002 ∧ envHost.isFree p = true :=
    ⟨9001, by decide, by decide, by decide⟩
  have h3 : ∀ q, 9000 ≤ q → q ≤ 9002 →
      (∀ r, 9000 ≤ r → r ≤ q → envHost.isFree r = false) →
      envHost.resolves q = true := by
    intro q _ hq _
    have hq2 : q ≤ 65535 := by omega
    simp [Env.resolves, envHost, hq2]
  have h4 : ∀ i a la, 9000 ≤ i → i ≤ 9002 →
      envHost.resolve i = .ok a → envHost.listen a = .ok la → la.port = i := by
    intro i a la hlo hhi ha hla
    have hi2 : i ≤ 65535 := by omega
    simp only [envHost, hi2, if_true, Except.ok.injEq] at ha
    subst ha
    have h0 : ¬ (loopback i).port = 0 := by
      show ¬ i = 0
      omega
    simp only [envHost, h0, if_false] at hla
    split at hla
    · simp at hla
    · simp only [Except.ok.injEq] at hla
      subst hla
      rfl
  exact ⟨⟨h1, h2, h3, h4⟩,
    getFreePort_first_fit envHost 64 9000 9002 World.empty h1 h2 h3 h4⟩

/-- A launch whose port scan returns an error returns that error at once. -/
theorem LaunchCollector_of_scan_error (env : Env) (bits fuel : Nat) (s : SyslogCollector)
    (ctx : LogCollectorContext) (w w1 : World) (err : GoError)
    (h : getFreePort env bits fuel ctx.PortLowerBound ctx.PortUpperBound w
      = some (.error err, w1)) :
    LaunchCollector env bits fuel s ctx w = some (.error err, s, w1) := by
  simp [LaunchCollector, h]

/-- C2 as stated fails: in the range [9000, 9000] no port can be bound, since
`localhost:9000` does not resolve, yet `getFreePort` and `LaunchCollector`
return the resolver's error, which is not the no-free-port error. -/
theorem getFreePort_none_free_counterexample :
    envUnresolved9000.isFree 9000 = false ∧
    (∀ fuel, getFreePort envUnresolved9000 64 (fuel + 1) 9000 9000 World.empty
      = some (.error (.lib 1), ⟨[], [.resolve 9000 false]⟩)) ∧
    (∀ fuel, LaunchCollector envUnresolved9000 64 (fuel + 1) NewSyslogCollector
        (ctxWeb 9000 9000) World.empty
      = some (.error (.lib 1), NewSyslogCollector, ⟨[], [.resolve 9000 false]⟩)) ∧
    GoError.lib 1 ≠ noFreePort :=
  ⟨by decide,
    fun fuel =>
      getFreePortLoop_unresolved envUnresolved9000 64 9000 fuel 9000 World.empty (.lib 1)
        (by decide) rfl,
    fun fuel =>
      LaunchCollector_of_scan_error envUnresolved9000 64 (fuel + 1) NewSyslogCollector
        (ctxWeb 9000 9000) World.empty _ (.lib 1)
        (getFreePortLoop_unresolved envUnresolved9000 64 9000 fuel 9000 World.empty (.lib 1)
          (by decide) rfl),
    by decide⟩

/-- C2, amended: for every range in which no port can be bound (the empty
range included) and whose upper bound is below the largest `uint` value,
`getFreePort` returns an error and no address, every probe bind it made failed
and it holds no more resources than before, and `LaunchCollector` with that
range returns the same error, no collector state, and leaves the collector as
it was. The error is the no-free-port error when every port of the range
resolves; when some port does not resolve, it is the resolver's error for the
first such port. -/
theorem getFreePort_none_free (env : Env) (bits : Nat) (s : SyslogCollector)
    (ctx : LogCollectorContext) (w : World)
    (hu : ctx.PortUpperBound + 1 < 2 ^ bits)
    (hnone : ∀ q, ctx.PortLowerBound ≤ q → q ≤ ctx.PortUpperBound → env.isFree q = false) :
    ∃ (err : GoError) (evs : List Event),
      (∀ a, Event.listen a true ∉ evs) ∧
      (∀ fuel, ctx.PortUpperBound + 1 - ctx.PortLowerBound < fuel →
        getFreePort env bits fuel ctx.PortLowerBound ctx.PortUpperBound w
          = some (.error err, ⟨w.res, w.trace ++ evs⟩) ∧
        LaunchCollector env bits fuel s ctx w
          = some (.error err, s, ⟨w.res, w.trace ++ evs⟩)) ∧
      ((∀ q, ctx.PortLowerBound ≤ q → q ≤ ctx.PortUpperBound → env.resolves q = true) →
        err = GoError.errorf "No free port found") ∧
      (∀ p e, ctx.PortLowerBound ≤ p → p ≤ ctx.PortUpperBound →
        env.resolve p = .error e →
        (∀ q, ctx.PortLowerBound ≤ q → q < p → env.resolves q = true) → err = e) := by
  classical
  by_cases hall : ∀ q, ctx.PortLowerBound ≤ q → q ≤ ctx.PortUpperBound →
      env.resolves q = true
  · have key : ∃ evs : List Event, (∀ a, Event.listen a true ∉ evs) ∧
        ∀ fuel, ctx.PortUpperBound + 1 - ctx.PortLowerBound < fuel →
          getFreePort env bits fuel ctx.PortLowerBound ctx.PortUpperBound w
            = some (.error noFreePort, ⟨w.res, w.trace ++ evs⟩) := by
      by_cases hlu : ctx.PortLowerBound ≤ ctx.PortUpperBound
      · obtain ⟨d, hd⟩ : ∃ d, ctx.PortUpperBound + 1 = ctx.PortLowerBound + d :=
          ⟨ctx.PortUpperBound + 1 - ctx.PortLowerBound, by omega⟩
        obtain ⟨evs, _, _, hn, hskip⟩ := getFreePortLoop_skip env bits ctx.PortUpperBound d
          ctx.PortLowerBound w
          (fun q h1 h2 => ⟨hall q h1 (by omega), hnone q h1 (by omega)⟩)
          (by omega) (by omega)
        refine ⟨evs, hn, ?_⟩
        intro fuel hf
        obtain ⟨f, rfl⟩ : ∃ f, fuel = (f + 1) + d := ⟨fuel - 1 - d, by omega⟩
        unfold getFreePort
        rw [hskip (f + 1)]
        exact getFreePortLoop_exhausted env bits ctx.PortUpperBound f _ _ (by omega)
      · refine ⟨[], by simp, ?_⟩
        intro fuel hf
        obtain ⟨f, rfl⟩ : ∃ f, fuel = f + 1 := ⟨fuel - 1, by omega⟩
        unfold getFreePort
        rw [getFreePortLoop_exhausted env bits ctx.PortUpperBound f _ _ (by omega)]
        simp
    obtain ⟨evs, hn, hret⟩ := key
    refine ⟨noFreePort, evs, hn, fun fuel hf =>
      ⟨hret fuel hf, LaunchCollector_of_scan_error env bits fuel s ctx w _ _ (hret fuel hf)⟩,
      fun _ => rfl, ?_⟩
    intro p e hp1 hp2 hpe _
    have := hall p hp1 hp2
    simp [Env.resolves, hpe] at this
  · have hex : ∃ q, ctx.PortLowerBound ≤ q ∧ q ≤ ctx.PortUpperBound ∧
        env.resolves q = false := by
      by_contra hcon
      apply hall
      intro q h1 h2
      by_contra hq
      exact hcon ⟨q, h1, h2, by simpa using hq⟩
    have hpl : ctx.PortLowerBound ≤ Nat.find hex := (Nat.find_spec hex).1
    have hpu : Nat.find hex ≤ ctx.PortUpperBound := (Nat.find_spec hex).2.1
    have hpr : env.resolves (Nat.find hex) = false := (Nat.find_spec hex).2.2
    have hmin : ∀ q, ctx.PortLowerBound ≤ q → q < Nat.find hex → env.resolves q = true := by
      intro q h1 h2
      have hq := Nat.find_min hex h2
      by_contra hr
      exact hq ⟨h1, by omega, by simpa using hr⟩
    generalize Nat.find hex = p0 at hpl hpu hpr hmin
    obtain ⟨d, rfl⟩ : ∃ d, p0 = ctx.PortLowerBound + d := ⟨p0 - ctx.PortLowerBound, by omega⟩
    obtain ⟨evs, _, _, hn, hskip⟩ := getFreePortLoop_skip env bits ctx.PortUpperBound d
      ctx.PortLowerBound w
      (fun q h1 h2 => ⟨hmin q h1 h2, hnone q h1 (by omega)⟩) (by omega) (by omega)
    cases hr : env.resolve (ctx.PortLowerBound + d) with
    | ok a => simp [Env.resolves, hr] at hpr
    | error e0 =>
      have hret : ∀ fuel, ctx.PortUpperBound + 1 - ctx.PortLowerBound < fuel →
          getFreePort env bits fuel ctx.PortLowerBound ctx.PortUpperBound w
            = some (.error e0, ⟨w.res,
                w.trace ++ (evs ++ [.resolve (ctx.PortLowerBound + d) false])⟩) := by
        intro fuel hf
        obtain ⟨f, rfl⟩ : ∃ f, fuel = (f + 1) + d := ⟨fuel - 1 - d, by omega⟩
        unfold getFreePort
        rw [hskip (f + 1),
          getFreePortLoop_unresolved env bits ctx.PortUpperBound f _ _ e0 hpu hr]
        simp [List.append_assoc]
      refine ⟨e0, evs ++ [.resolve (ctx.PortLowerBound + d) false], ?_, fun fuel hf =>
        ⟨hret fuel hf, LaunchCollector_of_scan_error env bits fuel s ctx w _ _ (hret fuel hf)⟩,
        fun h => absurd h hall, ?_⟩
      · intro a ha
        simp only [List.mem_append, List.mem_singleton] at ha
        rcases ha with ha | ha
        · exact hn a ha
        · cases ha
      · intro p e hp1 hp2 hpe hfirst
        have hpres : env.resolves p = false := by simp [Env.resolves, hpe]
        have h1 : ¬ p < ctx.PortLowerBound + d := by
          intro hlt
          have := hmin p hp1 hlt
          simp [hpres] at this
        have h2 : ¬ ctx.PortLowerBound + d < p := by
          intro hlt
          have := hfirst _ hpl hlt
          simp [hpr] at this
        have hpe2 : p = ctx.PortLowerBound + d := by omega
        subst hpe2
        rw [hr] at hpe
        simpa using hpe

/-- C2, amended, at the range [9000, 9000]: once with port 9000 taken, once
with `localhost:9000` not resolving. -/
theorem getFreePort_none_free_witness :
    (((ctxWeb 9000 9000).PortUpperBound + 1 < 2 ^ 64 ∧
        ∀ q, (ctxWeb 9000 9000).PortLowerBound ≤ q → q ≤ (ctxWeb 9000 9000).PortUpperBound →
          envBusy9000.isFree q = false) ∧
      ∃ (err : GoError) (evs : List Event),
        (∀ a, Event.listen a true ∉ evs) ∧
        (∀ fuel,
          (ctxWeb 9000 9000).PortUpperBound + 1 - (ctxWeb 9000 9000).PortLowerBound < fuel →
          getFreePort envBusy9000 64 fuel (ctxWeb 9000 9000).PortLowerBound
              (ctxWeb 9000 9000).PortUpperBound World.empty
            = some (.error err, ⟨World.empty.res, World.empty.trace ++ evs⟩) ∧
          LaunchCollector envBusy9000 64 fuel NewSyslogCollector (ctxWeb 9000 9000) World.empty
            = some (.error err, NewSyslogCollector,
                ⟨World.empty.res, World.empty.trace ++ evs⟩)) ∧
        ((∀ q, (ctxWeb 9000 9000).PortLowerBound ≤ q →
            q ≤ (ctxWeb 9000 9000).PortUpperBound → envBusy9000.resolves q = true) →
          err = GoError.errorf "No free port found") ∧
        (∀ p e, (ctxWeb 9000 9000).PortLowerBound ≤ p →
          p ≤ (ctxWeb 9000 9000).PortUpperBound →
          envBusy9000.resolve p = .error e →
          (∀ q, (ctxWeb 9000 9000).PortLowerBound ≤ q → q < p →
            envBusy9000.resolves q = true) → err = e)) ∧
    ((∀ q, (ctxWeb 9000 9000).PortLowerBound ≤ q → q ≤ (ctxWeb 9000 9000).PortUpperBound →
        envUnresolved9000.isFree q = false) ∧
      envUnresolved9000.resolve 9000 = .error (.lib 1) ∧
      ∃ (err : GoError) (evs : List Event),
        (∀ a, Event.listen a true ∉ evs) ∧
        (∀ fuel,
          (ctxWeb 9000 9000).PortUpperBound + 1 - (ctxWeb 9000 9000).PortLowerBound < fuel →
          getFreePort envUnresolved9000 64 fuel (ctxWeb 9000 9000).PortLowerBound
              (ctxWeb 9000 9000).PortUpperBound World.empty
            = some (.error err, ⟨World.empty.res, World.empty.trace ++ evs⟩) ∧
          LaunchCollector envUnresolved9000 64 fuel NewSyslogCollector (ctxWeb 9000 9000)
              World.empty
            = some (.error err, NewSyslogCollector,
                ⟨World.empty.res, World.empty.trace ++ evs⟩)) ∧
        ((∀ q, (ctxWeb 9000 9000).PortLowerBound ≤ q →
            q ≤ (ctxWeb 9000 9000).PortUpperBound → envUnresolved9000.resolves q = true) →
          err = GoError.errorf "No free port found") ∧
        (∀ p e, (ctxWeb 9000 9000).PortLowerBound ≤ p →
          p ≤ (ctxWeb 9000 9000).PortUpperBound →
          envUnresolved9000.resolve p = .error e →
          (∀ q, (ctxWeb 9000 9000).PortLowerBound ≤ q → q < p →
            envUnresolved9000.resolves q = true) → err = e)) := by
  have h1 : (ctxWeb 9000 9000).PortUpperBound + 1 < 2 ^ 64 := by decide
  have h2 : ∀ q, (ctxWeb 9000 9000).PortLowerBound ≤ q →
      q ≤ (ctxWeb 9000 9000).PortUpperBound → envBusy9000.isFree q = false := by
    intro q hl hu
    have hq : q = 9000 := le_antisymm hu hl
    subst hq
    decide
  have h3 : ∀ q, (ctxWeb 9000 9000).PortLowerBound ≤ q →
      q ≤ (ctxWeb 9000 9000).PortUpperBound → envUnresolved9000.isFree q = false := by
    intro q hl hu
    have hq : q = 9000 := le_antisymm hu hl
    subst hq
    decide
  exact ⟨⟨⟨h1, h2⟩,
      getFreePort_none_free envBusy9000 64 NewSyslogCollector (ctxWeb 9000 9000) World.empty
        h1 h2⟩,
    h3, rfl,
    getFreePort_none_free envUnresolved9000 64 NewSyslogCollector (ctxWeb 9000 9000)
      World.empty h1 h3⟩

/-! ## Launch sequence: helper lemmas -/

/-- What `server.ListenTCP` leaves behind: one more trace entry, and the
server's listener among the open resources exactly when the bind succeeded. -/
theorem serverListenTCP_spec (env : Env) (addr : String) (srv : Server) (w : World) :
    ∃ ok : Bool,
      (serverListenTCP env addr srv w).2.trace = w.trace ++ [.serverListen addr ok] ∧
      (∀ r ∈ w.res, r ∈ (serverListenTCP env addr srv w).2.res) ∧
      (∀ a ∈ (serverListenTCP env addr srv w).1.listeners,
        a ∈ srv.listeners ∨ Resource.listener a ∈ (serverListenTCP env addr srv w).2.res) ∧
      (serverListenTCP env addr srv w).1.booted = srv.booted := by
  unfold serverListenTCP
  cases env.serverListen addr with
  | error err =>
    exact ⟨false, rfl, fun r hr => hr, fun a ha => Or.inl ha, rfl⟩
  | ok la =>
    refine ⟨true, rfl, fun r hr => List.mem_cons_of_mem _ hr, ?_, rfl⟩
    intro a ha
    simp only [List.mem_cons] at ha
    rcases ha with rfl | ha
    · exact Or.inr (List.mem_cons_self _ _)
    · exact Or.inl ha

/-- A launch that returns has first completed its port scan. -/
theorem LaunchCollector_scan (env : Env) (bits fuel : Nat) (s s1 : SyslogCollector)
    (ctx : LogCollectorContext) (w w1 : World) (r : Except GoError SyslogCollectorState)
    (h : LaunchCollector env bits fuel s ctx w = some (r, s1, w1)) :
    ∃ (ra : Except GoError TCPAddr) (w0 : World),
      getFreePort env bits fuel ctx.PortLowerBound ctx.PortUpperBound w = some (ra, w0) := by
  cases hs : getFreePort env bits fuel ctx.PortLowerBound ctx.PortUpperBound w with
  | none => simp [LaunchCollector, hs] at h
  | some p => exact ⟨p.1, p.2, rfl⟩

/-- A launch whose scan found a port and whose task is unknown. -/
theorem LaunchCollector_of_unknown_task (env : Env) (bits fuel : Nat) (s : SyslogCollector)
    (ctx : LogCollectorContext) (w w0 : World) (addr : TCPAddr)
    (hs : getFreePort env bits fuel ctx.PortLowerBound ctx.PortUpperBound w
      = some (.ok addr, w0))
    (hdir : ctx.AllocDir.TaskDirs.lookup ctx.TaskName = none) :
    LaunchCollector env bits fuel s ctx w
      = some (.error (taskDirNotFound ctx.TaskName), { s with ctx := some ctx }, w0) := by
  simp [LaunchCollector, hs, configureTaskDir, hdir]

/-- A launch whose scan found a port and whose task directory is known: the
server is created and bound, then booted; the pipe is made, the sink
constructed and the three goroutines started. -/
theorem LaunchCollector_of_known_task (env : Env) (bits fuel : Nat) (s : SyslogCollector)
    (ctx : LogCollectorContext) (w w0 : World) (addr : TCPAddr) (dir : String)
    (hs : getFreePort env bits fuel ctx.PortLowerBound ctx.PortUpperBound w
      = some (.ok addr, w0))
    (hdir : ctx.AllocDir.TaskDirs.lookup ctx.TaskName = some dir) :
    LaunchCollector env bits fuel s ctx w
      = match env.boot with
        | some err =>
          some (.error err,
            { ctx := some ctx, taskDir := dir,
              server := some (serverListenTCP env addr.addrString ⟨[], false⟩ w0).1 },
            (serverListenTCP env addr.addrString ⟨[], false⟩ w0).2.emit (.serverBoot false))
        | none =>
          match env.newLogRotator (filepathJoin dir TaskLocal) (ctx.TaskName ++ ".stdout")
              ctx.LogConfig.MaxFiles (logFileSize bits ctx.LogConfig.MaxFileSizeMB) with
          | some err =>
            some (.error err,
              { ctx := some ctx, taskDir := dir,
                server := some
                  { (serverListenTCP env addr.addrString ⟨[], false⟩ w0).1 with booted := true } },
              ⟨.pipe :: (serverListenTCP env addr.addrString ⟨[], false⟩ w0).2.res,
                (serverListenTCP env addr.addrString ⟨[], false⟩ w0).2.trace ++
                  [.serverBoot true, .pipe,
                    .newLogRotator (filepathJoin dir TaskLocal) (ctx.TaskName ++ ".stdout")
                      ctx.LogConfig.MaxFiles (logFileSize bits ctx.LogConfig.MaxFileSizeMB)
                      false]⟩)
          | none =>
            some (.ok { Addr := addr.addrString },
              { ctx := some ctx, taskDir := dir,
                server := some
                  { (serverListenTCP env addr.addrString ⟨[], false⟩ w0).1 with booted := true } },
              ⟨.pipe :: (serverListenTCP env addr.addrString ⟨[], false⟩ w0).2.res,
                (serverListenTCP env addr.addrString ⟨[], false⟩ w0).2.trace ++
                  [.serverBoot true, .pipe,
                    .newLogRotator (filepathJoin dir TaskLocal) (ctx.TaskName ++ ".stdout")
                      ctx.LogConfig.MaxFiles (logFileSize bits ctx.LogConfig.MaxFileSizeMB)
                      true,
                    .goSink, .goPump, .goWait]⟩) := by
  simp only [LaunchCollector, hs, configureTaskDir, hdir]
  cases env.boot with
  | some err => rfl
  | none =>
    simp only []
    cases env.newLogRotator (filepathJoin dir TaskLocal) (ctx.TaskName ++ ".stdout")
        ctx.LogConfig.MaxFiles (logFileSize bits ctx.LogConfig.MaxFileSizeMB) with
    | some err => simp [World.emit, World.acquire]
    | none => simp [World.emit, World.acquire]

/-! ## Launch sequence: claims -/

/-- C3 as stated fails: for the unknown task `db` over the range [9000, 9001],
`LaunchCollector` returns the directory-not-found error only after the port
scan, which made two probe binds, one of them successful. -/
theorem LaunchCollector_unknown_task_counterexample :
    (ctxUnknownTask 9000 9001).AllocDir.TaskDirs.lookup (ctxUnknownTask 9000 9001).TaskName
      = none ∧
    (∀ fuel, LaunchCollector envBusy9000 64 (fuel + 2) NewSyslogCollector
        (ctxUnknownTask 9000 9001) World.empty
      = some (.error (taskDirNotFound "db"),
          { NewSyslogCollector with ctx := some (ctxUnknownTask 9000 9001) },
          ⟨[], [.resolve 9000 true, .listen (loopback 9000) false, .resolve 9001 true,
            .listen (loopback 9001) true, .close (loopback 9001)]⟩)) ∧
    bindAttempts [.resolve 9000 true, .listen (loopback 9000) false, .resolve 9001 true,
      .listen (loopback 9001) true, .close (loopback 9001)] = 2 := by
  refine ⟨by decide, fun fuel => ?_, by decide⟩
  have hs : getFreePort envBusy9000 64 (fuel + 2) (ctxUnknownTask 9000 9001).PortLowerBound
      (ctxUnknownTask 9000 9001).PortUpperBound World.empty
      = some (.ok (loopback 9001),
          ⟨[], [.resolve 9000 true, .listen (loopback 9000) false, .resolve 9001 true,
            .listen (loopback 9001) true, .close (loopback 9001)]⟩) := by
    simp [getFreePort, getFreePortLoop, envBusy9000, ctxUnknownTask, ctxWeb, loopback,
      World.empty, World.emit, World.acquire, World.release]
  rw [LaunchCollector_of_unknown_task envBusy9000 64 (fuel + 2) NewSyslogCollector
    (ctxUnknownTask 9000 9001) World.empty _ _ hs (by decide)]
  rfl

/-- C3, amended: for a launch context whose task name has no entry in the
task-directory map and whose upper port bound is below the largest `uint`
value, `LaunchCollector` scans the port range first and then fails: with the
scan's own error when the scan fails, with the directory-not-found error when
the scan found a port. Either way only scan events (resolve, probe bind, probe
close) have happened, so no server, pipe or sink was created, and the
resources held are those held before the call. -/
theorem LaunchCollector_unknown_task (env : Env) (bits : Nat) (s : SyslogCollector)
    (ctx : LogCollectorContext) (w : World)
    (hu : ctx.PortUpperBound + 1 < 2 ^ bits)
    (hdir : ctx.AllocDir.TaskDirs.lookup ctx.TaskName = none) :
    ∃ (ra : Except GoError TCPAddr) (evs : List Event),
      (∀ e ∈ evs, e.isScan = true) ∧
      ∀ fuel, ctx.PortUpperBound + 1 - ctx.PortLowerBound < fuel →
        getFreePort env bits fuel ctx.PortLowerBound ctx.PortUpperBound w
          = some (ra, ⟨w.res, w.trace ++ evs⟩) ∧
        LaunchCollector env bits fuel s ctx w
          = match ra with
            | .error err => some (.error err, s, ⟨w.res, w.trace ++ evs⟩)
            | .ok _ =>
              some (.error (taskDirNotFound ctx.TaskName), { s with ctx := some ctx },
                ⟨w.res, w.trace ++ evs⟩) := by
  obtain ⟨ra, evs, k, _, _, _, hscan, hloop⟩ :=
    getFreePortLoop_total env bits ctx.PortUpperBound hu
      (ctx.PortUpperBound + 1 - ctx.PortLowerBound) ctx.PortLowerBound w (le_refl _)
  refine ⟨ra, evs, hscan, fun fuel hf => ⟨hloop fuel hf, ?_⟩⟩
  have hs : getFreePort env bits fuel ctx.PortLowerBound ctx.PortUpperBound w
      = some (ra, ⟨w.res, w.trace ++ evs⟩) := hloop fuel hf
  cases ra with
  | error err => exact LaunchCollector_of_scan_error env bits fuel s ctx w _ err hs
  | ok addr => exact LaunchCollector_of_unknown_task env bits fuel s ctx w _ addr hs hdir

/-- C3, amended, at the unknown task `db` over the range [9000, 9001]. -/
theorem LaunchCollector_unknown_task_witness :
    ((ctxUnknownTask 9000 9001).PortUpperBound + 1 < 2 ^ 64 ∧
      (ctxUnknownTask 9000 9001).AllocDir.TaskDirs.lookup (ctxUnknownTask 9000 9001).TaskName
        = none) ∧
    ∃ (ra : Except GoError TCPAddr) (evs : List Event),
      (∀ e ∈ evs, e.isScan = true) ∧
      ∀ fuel, (ctxUnknownTask 9000 9001).PortUpperBound + 1
          - (ctxUnknownTask 9000 9001).PortLowerBound < fuel →
        getFreePort envBusy9000 64 fuel (ctxUnknownTask 9000 9001).PortLowerBound
            (ctxUnknownTask 9000 9001).PortUpperBound World.empty
          = some (ra, ⟨World.empty.res, World.empty.trace ++ evs⟩) ∧
        LaunchCollector envBusy9000 64 fuel NewSyslogCollector (ctxUnknownTask 9000 9001)
            World.empty
          = match ra with
            | .error err =>
              some (.error err, NewSyslogCollector, ⟨World.empty.res, World.empty.trace ++ evs⟩)
            | .ok _ =>
              some (.error (taskDirNotFound (ctxUnknownTask 9000 9001).TaskName),
                { NewSyslogCollector with ctx := some (ctxUnknownTask 9000 9001) },
                ⟨World.empty.res, World.empty.trace ++ evs⟩) :=
  ⟨⟨by decide, by decide⟩,
    LaunchCollector_unknown_task envBusy9000 64 NewSyslogCollector (ctxUnknownTask 9000 9001)
      World.empty (by decide) (by decide)⟩

/-- The scan of [9000, 9001] when only 9000 is taken: 9000 is probed and
skipped, 9001 is probed, bound, and closed again. -/
theorem scan_busy9000 (env : Env) (hr : env.resolve = envBusy9000.resolve)
    (hl : env.listen = envBusy9000.listen) (fuel : Nat) :
    getFreePort env 64 (fuel + 2) 9000 9001 World.empty
      = some (.ok (loopback 9001),
          ⟨[], [.resolve 9000 true, .listen (loopback 9000) false, .resolve 9001 true,
            .listen (loopback 9001) true, .close (loopback 9001)]⟩) := by
  simp [getFreePort, getFreePortLoop, hr, hl, envBusy9000, loopback,
    World.empty, World.emit, World.acquire, World.release]

/-- C7 as stated fails: when the sink constructor fails, `LaunchCollector`
returns its error while the booted server's listener on port 9001 and the pipe
are still open. -/
theorem LaunchCollector_error_cleanup_counterexample :
    (∀ fuel, LaunchCollector envSinkFails 64 (fuel + 2) NewSyslogCollector (ctxWeb 9000 9001)
        World.empty
      = some (.error (.lib 13),
          { ctx := some (ctxWeb 9000 9001), taskDir := "/alloc/web",
            server := some { listeners := [loopback 9001], booted := true } },
          ⟨[.pipe, .listener (loopback 9001)],
            [.resolve 9000 true, .listen (loopback 9000) false, .resolve 9001 true,
              .listen (loopback 9001) true, .close (loopback 9001),
              .serverListen "127.0.0.1:9001" true, .serverBoot true, .pipe,
              .newLogRotator "/alloc/web/local" "web.stdout" 10 10485760 false]⟩)) ∧
    Resource.listener (loopback 9001) ∈ [Resource.pipe, Resource.listener (loopback 9001)] ∧
    [Resource.pipe, Resource.listener (loopback 9001)] ≠ World.empty.res := by
  refine ⟨fun fuel => ?_, by decide, by decide⟩
  rw [LaunchCollector_of_known_task envSinkFails 64 (fuel + 2) NewSyslogCollector
    (ctxWeb 9000 9001) World.empty _ (loopback 9001) "/alloc/web"
    (scan_busy9000 envSinkFails rfl rfl fuel) (by decide)]
  rfl


/-- C7, amended: whenever `LaunchCollector` returns an error raised by the port
scan or by the task-directory lookup, it leaves nothing dangling: the
resources held are those held before the call (the probe is closed), the
collector's server field is untouched, and only scan events have happened, so
no server listener, pipe or sink was started. -/
theorem LaunchCollector_early_error_clean (env : Env) (bits fuel : Nat)
    (s s1 : SyslogCollector) (ctx : LogCollectorContext) (w w1 : World) (err : GoError)
    (h : LaunchCollector env bits fuel s ctx w = some (.error err, s1, w1))
    (hearly : (∃ w0, getFreePort env bits fuel ctx.PortLowerBound ctx.PortUpperBound w
        = some (.error err, w0)) ∨
      ctx.AllocDir.TaskDirs.lookup ctx.TaskName = none) :
    w1.res = w.res ∧ s1.server = s.server ∧
    ∃ evs : List Event, w1.trace = w.trace ++ evs ∧ ∀ e ∈ evs, e.isScan = true := by
  obtain ⟨ra, w0, hs⟩ := LaunchCollector_scan env bits fuel s s1 ctx w w1 _ h
  have hret := getFreePortLoop_returns env bits ctx.PortUpperBound fuel ctx.PortLowerBound
    w ra w0 hs
  have herr : ∀ e0, ra = .error e0 → w1.res = w.res ∧ s1.server = s.server ∧
      ∃ evs : List Event, w1.trace = w.trace ++ evs ∧ ∀ e ∈ evs, e.isScan = true := by
    intro e0 he0
    subst he0
    rw [LaunchCollector_of_scan_error env bits fuel s ctx w w0 e0 hs] at h
    simp only [Option.some.injEq, Prod.mk.injEq] at h
    obtain ⟨_, rfl, rfl⟩ := h
    exact ⟨hret.1, rfl, hret.2⟩
  rcases hearly with ⟨w0', hs'⟩ | hdir
  · rw [hs] at hs'
    simp only [Option.some.injEq, Prod.mk.injEq] at hs'
    exact herr err hs'.1
  · cases ra with
    | error e0 => exact herr e0 rfl
    | ok addr =>
      rw [LaunchCollector_of_unknown_task env bits fuel s ctx w w0 addr hs hdir] at h
      simp only [Option.some.injEq, Prod.mk.injEq] at h
      obtain ⟨_, rfl, rfl⟩ := h
      exact ⟨hret.1, rfl, hret.2⟩

/-- C7, amended, at a launch that fails at the task-directory lookup. -/
theorem LaunchCollector_early_error_clean_witness :
    (LaunchCollector envBusy9000 64 2 NewSyslogCollector (ctxUnknownTask 9000 9001) World.empty
        = some (.error (taskDirNotFound "db"),
            { NewSyslogCollector with ctx := some (ctxUnknownTask 9000 9001) },
            ⟨[], [.resolve 9000 true, .listen (loopback 9000) false, .resolve 9001 true,
              .listen (loopback 9001) true, .close (loopback 9001)]⟩) ∧
      ((∃ w0, getFreePort envBusy9000 64 2 (ctxUnknownTask 9000 9001).PortLowerBound
          (ctxUnknownTask 9000 9001).PortUpperBound World.empty
          = some (.error (taskDirNotFound "db"), w0)) ∨
        (ctxUnknownTask 9000 9001).AllocDir.TaskDirs.lookup (ctxUnknownTask 9000 9001).TaskName
          = none)) ∧
    ((⟨[], [.resolve 9000 true, .listen (loopback 9000) false, .resolve 9001 true,
        .listen (loopback 9001) true, .close (loopback 9001)]⟩ : World).res = World.empty.res ∧
      ({ NewSyslogCollector with ctx := some (ctxUnknownTask 9000 9001) } : SyslogCollector).server
        = NewSyslogCollector.server ∧
      ∃ evs : List Event,
        (⟨[], [.resolve 9000 true, .listen (loopback 9000) false, .resolve 9001 true,
          .listen (loopback 9001) true, .close (loopback 9001)]⟩ : World).trace
          = World.empty.trace ++ evs ∧
        ∀ e ∈ evs, e.isScan = true) :=
  ⟨⟨rfl, Or.inr (by decide)⟩,
    LaunchCollector_early_error_clean envBusy9000 64 2 NewSyslogCollector _
      (ctxUnknownTask 9000 9001) World.empty _ _ rfl (Or.inr (by decide))⟩

/-- C8 as stated fails: after a successful launch on port 9001, `Exit` returns
nil and leaves the world as it was: the server's listener on 9001 and the pipe
are still open, and the collector still holds its booted server. -/
theorem Exit_releases_counterexample :
    (∀ fuel, LaunchCollector envBusy9000 64 (fuel + 2) NewSyslogCollector (ctxWeb 9000 9001)
        World.empty
      = some (.ok { Addr := "127.0.0.1:9001" },
          { ctx := some (ctxWeb 9000 9001), taskDir := "/alloc/web",
            server := some { listeners := [loopback 9001], booted := true } },
          ⟨[.pipe, .listener (loopback 9001)],
            [.resolve 9000 true, .listen (loopback 9000) false, .resolve 9001 true,
              .listen (loopback 9001) true, .close (loopback 9001),
              .serverListen "127.0.0.1:9001" true, .serverBoot true, .pipe,
              .newLogRotator "/alloc/web/local" "web.stdout" 10 10485760 true,
              .goSink, .goPump, .goWait]⟩)) ∧
    (Exit
        { ctx := some (ctxWeb 9000 9001), taskDir := "/alloc/web",
          server := some { listeners := [loopback 9001], booted := true } }
        ⟨[.pipe, .listener (loopback 9001)],
          [.resolve 9000 true, .listen (loopback 9000) false, .resolve 9001 true,
            .listen (loopback 9001) true, .close (loopback 9001),
            .serverListen "127.0.0.1:9001" true, .serverBoot true, .pipe,
            .newLogRotator "/alloc/web/local" "web.stdout" 10 10485760 true,
            .goSink, .goPump, .goWait]⟩).2.2.res
      = [.pipe, .listener (loopback 9001)] ∧
    (Exit
        { ctx := some (ctxWeb 9000 9001), taskDir := "/alloc/web",
          server := some { listeners := [loopback 9001], booted := true } }
        ⟨[.pipe, .listener (loopback 9001)],
          [.resolve 9000 true, .listen (loopback 9000) false, .resolve 9001 true,
            .listen (loopback 9001) true, .close (loopback 9001),
            .serverListen "127.0.0.1:9001" true, .serverBoot true, .pipe,
            .newLogRotator "/alloc/web/local" "web.stdout" 10 10485760 true,
            .goSink, .goPump, .goWait]⟩).2.1.server
      = some { listeners := [loopback 9001], booted := true } := by
  refine ⟨fun fuel => ?_, rfl, rfl⟩
  rw [LaunchCollector_of_known_task envBusy9000 64 (fuel + 2) NewSyslogCollector
    (ctxWeb 9000 9001) World.empty _ (loopback 9001) "/alloc/web"
    (scan_busy9000 envBusy9000 rfl rfl fuel) (by decide)]
  rfl


/-- A launch that succeeded went through every step: the scan found a port,
the task directory was known, boot and sink construction succeeded. -/
theorem LaunchCollector_ok_inv (env : Env) (bits fuel : Nat) (s s1 : SyslogCollector)
    (ctx : LogCollectorContext) (w w1 : World) (st : SyslogCollectorState)
    (h : LaunchCollector env bits fuel s ctx w = some (.ok st, s1, w1)) :
    ∃ (addr : TCPAddr) (w0 : World) (dir : String),
      getFreePort env bits fuel ctx.PortLowerBound ctx.PortUpperBound w
        = some (.ok addr, w0) ∧
      ctx.AllocDir.TaskDirs.lookup ctx.TaskName = some dir ∧
      st = { Addr := addr.addrString } ∧
      s1 = { ctx := some ctx, taskDir := dir,
             server := some
               { (serverListenTCP env addr.addrString ⟨[], false⟩ w0).1 with booted := true } } ∧
      w1 = ⟨.pipe :: (serverListenTCP env addr.addrString ⟨[], false⟩ w0).2.res,
            (serverListenTCP env addr.addrString ⟨[], false⟩ w0).2.trace ++
              [.serverBoot true, .pipe,
                .newLogRotator (filepathJoin dir TaskLocal) (ctx.TaskName ++ ".stdout")
                  ctx.LogConfig.MaxFiles (logFileSize bits ctx.LogConfig.MaxFileSizeMB) true,
                .goSink, .goPump, .goWait]⟩ := by
  obtain ⟨ra, w0, hs⟩ := LaunchCollector_scan env bits fuel s s1 ctx w w1 _ h
  cases ra with
  | error e0 =>
    rw [LaunchCollector_of_scan_error env bits fuel s ctx w w0 e0 hs] at h
    simp at h
  | ok addr =>
    cases hdir : ctx.AllocDir.TaskDirs.lookup ctx.TaskName with
    | none =>
      rw [LaunchCollector_of_unknown_task env bits fuel s ctx w w0 addr hs hdir] at h
      simp at h
    | some dir =>
      rw [LaunchCollector_of_known_task env bits fuel s ctx w w0 addr dir hs hdir] at h
      cases hb : env.boot with
      | some e1 => simp [hb] at h
      | none =>
        simp only [hb] at h
        cases hn : env.newLogRotator (filepathJoin dir TaskLocal) (ctx.TaskName ++ ".stdout")
            ctx.LogConfig.MaxFiles (logFileSize bits ctx.LogConfig.MaxFileSizeMB) with
        | some e2 => simp [hn] at h
        | none =>
          simp only [hn, Option.some.injEq, Prod.mk.injEq, Except.ok.injEq] at h
          obtain ⟨h1, h2, h3⟩ := h
          exact ⟨addr, w0, dir, hs, rfl, h1.symm, h2.symm, h3.symm⟩

/-- C8, amended: for every collector on which `LaunchCollector` succeeded, a
following `Exit` returns nil and changes nothing: afterwards the collector
still holds its booted server, every listener that server bound is still open,
and so is the pipe. -/
theorem Exit_keeps_everything (env : Env) (bits fuel : Nat) (s s1 : SyslogCollector)
    (ctx : LogCollectorContext) (w w1 : World) (st : SyslogCollectorState)
    (h : LaunchCollector env bits fuel s ctx w = some (.ok st, s1, w1)) :
    (Exit s1 w1).1 = none ∧ (Exit s1 w1).2.1 = s1 ∧ (Exit s1 w1).2.2 = w1 ∧
    (∃ srv : Server, (Exit s1 w1).2.1.server = some srv ∧ srv.booted = true ∧
      ∀ a ∈ srv.listeners, Resource.listener a ∈ (Exit s1 w1).2.2.res) ∧
    Resource.pipe ∈ (Exit s1 w1).2.2.res := by
  obtain ⟨addr, w0, dir, _, _, _, rfl, rfl⟩ :=
    LaunchCollector_ok_inv env bits fuel s s1 ctx w w1 st h
  obtain ⟨_, _, _, hl, _⟩ := serverListenTCP_spec env addr.addrString ⟨[], false⟩ w0
  refine ⟨rfl, rfl, rfl, ⟨_, rfl, rfl, ?_⟩, List.mem_cons_self _ _⟩
  intro a ha
  rcases hl a ha with h0 | h0
  · simp at h0
  · exact List.mem_cons_of_mem _ h0

/-- C8, amended, at a successful launch on port 9001. -/
theorem Exit_keeps_everything_witness :
    LaunchCollector envBusy9000 64 2 NewSyslogCollector (ctxWeb 9000 9001) World.empty
      = some (.ok { Addr := "127.0.0.1:9001" },
          { ctx := some (ctxWeb 9000 9001), taskDir := "/alloc/web",
            server := some { listeners := [loopback 9001], booted := true } },
          ⟨[.pipe, .listener (loopback 9001)],
            [.resolve 9000 true, .listen (loopback 9000) false, .resolve 9001 true,
              .listen (loopback 9001) true, .close (loopback 9001),
              .serverListen "127.0.0.1:9001" true, .serverBoot true, .pipe,
              .newLogRotator "/alloc/web/local" "web.stdout" 10 10485760 true,
              .goSink, .goPump, .goWait]⟩) ∧
    Resource.pipe ∈ (Exit
        { ctx := some (ctxWeb 9000 9001), taskDir := "/alloc/web",
          server := some { listeners := [loopback 9001], booted := true } }
        ⟨[.pipe, .listener (loopback 9001)],
          [.resolve 9000 true, .listen (loopback 9000) false, .resolve 9001 true,
            .listen (loopback 9001) true, .close (loopback 9001),
            .serverListen "127.0.0.1:9001" true, .serverBoot true, .pipe,
            .newLogRotator "/alloc/web/local" "web.stdout" 10 10485760 true,
            .goSink, .goPump, .goWait]⟩).2.2.res :=
  ⟨rfl,
    (Exit_keeps_everything envBusy9000 64 2 NewSyslogCollector _ (ctxWeb 9000 9001)
      World.empty _ _ rfl).2.2.2.2⟩

/-- C9 as stated fails: in a successful launch the server is bound and booted
(trace positions 5 and 6) before the sink is constructed and started
(positions 8 and 9). -/
theorem LaunchCollector_order_counterexample :
    (∀ fuel, (LaunchCollector envBusy9000 64 (fuel + 2) NewSyslogCollector (ctxWeb 9000 9001)
        World.empty).map (fun r => (r.1, r.2.2.trace))
      = some (.ok { Addr := "127.0.0.1:9001" },
          [.resolve 9000 true, .listen (loopback 9000) false, .resolve 9001 true,
            .listen (loopback 9001) true, .close (loopback 9001),
            .serverListen "127.0.0.1:9001" true, .serverBoot true, .pipe,
            .newLogRotator "/alloc/web/local" "web.stdout" 10 10485760 true,
            .goSink, .goPump, .goWait])) ∧
    List.indexOf (Event.serverBoot true)
      [.resolve 9000 true, .listen (loopback 9000) false, .resolve 9001 true,
        .listen (loopback 9001) true, .close (loopback 9001),
        .serverListen "127.0.0.1:9001" true, .serverBoot true, .pipe,
        .newLogRotator "/alloc/web/local" "web.stdout" 10 10485760 true,
        .goSink, .goPump, .goWait] = 6 ∧
    List.indexOf Event.goSink
      [.resolve 9000 true, .listen (loopback 9000) false, .resolve 9001 true,
        .listen (loopback 9001) true, .close (loopback 9001),
        .serverListen "127.0.0.1:9001" true, .serverBoot true, .pipe,
        .newLogRotator "/alloc/web/local" "web.stdout" 10 10485760 true,
        .goSink, .goPump, .goWait] = 9 := by
  refine ⟨fun fuel => ?_, by decide, by decide⟩
  rw [LaunchCollector_of_known_task envBusy9000 64 (fuel + 2) NewSyslogCollector
    (ctxWeb 9000 9001) World.empty _ (loopback 9001) "/alloc/web"
    (scan_busy9000 envBusy9000 rfl rfl fuel) (by decide)]
  rfl

/-- C9, amended: in every execution of `LaunchCollector` that succeeds, the
steps after the port scan happen in this order: the server binds its listener,
the server is booted, the pipe is created, the rotating sink is constructed,
the sink is started, the bridge pump is started, the server's wait is
started. The listener is thus bound and booted before the sink exists. -/
theorem LaunchCollector_order (env : Env) (bits fuel : Nat) (s s1 : SyslogCollector)
    (ctx : LogCollectorContext) (w w1 : World) (st : SyslogCollectorState)
    (h : LaunchCollector env bits fuel s ctx w = some (.ok st, s1, w1)) :
    ∃ (evs : List Event) (ok : Bool) (path file : String),
      (∀ e ∈ evs, e.isScan = true) ∧
      w1.trace = w.trace ++ evs ++
        [.serverListen st.Addr ok, .serverBoot true, .pipe,
          .newLogRotator path file ctx.LogConfig.MaxFiles
            (logFileSize bits ctx.LogConfig.MaxFileSizeMB) true,
          .goSink, .goPump, .goWait] := by
  obtain ⟨addr, w0, dir, hs, _, rfl, _, rfl⟩ :=
    LaunchCollector_ok_inv env bits fuel s s1 ctx w w1 st h
  obtain ⟨_, evs, ht, hscan⟩ := getFreePortLoop_returns env bits ctx.PortUpperBound fuel
    ctx.PortLowerBound w _ w0 hs
  obtain ⟨ok, htr, _, _, _⟩ := serverListenTCP_spec env addr.addrString ⟨[], false⟩ w0
  refine ⟨evs, ok, filepathJoin dir TaskLocal, ctx.TaskName ++ ".stdout", hscan, ?_⟩
  simp only [htr, ht, List.append_assoc, List.singleton_append]

/-- C9, amended, at a successful launch on port 9001. -/
theorem LaunchCollector_order_witness :
    LaunchCollector envBusy9000 64 2 NewSyslogCollector (ctxWeb 9000 9001) World.empty
      = some (.ok { Addr := "127.0.0.1:9001" },
          { ctx := some (ctxWeb 9000 9001), taskDir := "/alloc/web",
            server := some { listeners := [loopback 9001], booted := true } },
          ⟨[.pipe, .listener (loopback 9001)],
            [.resolve 9000 true, .listen (loopback 9000) false, .resolve 9001 true,
              .listen (loopback 9001) true, .close (loopback 9001),
              .serverListen "127.0.0.1:9001" true, .serverBoot true, .pipe,
              .newLogRotator "/alloc/web/local" "web.stdout" 10 10485760 true,
              .goSink, .goPump, .goWait]⟩) ∧
    ∃ (evs : List Event) (ok : Bool) (path file : String),
      (∀ e ∈ evs, e.isScan = true) ∧
      [.resolve 9000 true, .listen (loopback 9000) false, .resolve 9001 true,
        .listen (loopback 9001) true, .close (loopback 9001),
        .serverListen "127.0.0.1:9001" true, .serverBoot true, .pipe,
        .newLogRotator "/alloc/web/local" "web.stdout" 10 10485760 true,
        .goSink, .goPump, .goWait]
      = World.empty.trace ++ evs ++
        [.serverListen "127.0.0.1:9001" ok, .serverBoot true, .pipe,
          .newLogRotator path file (ctxWeb 9000 9001).LogConfig.MaxFiles
            (logFileSize 64 (ctxWeb 9000 9001).LogConfig.MaxFileSizeMB) true,
          .goSink, .goPump, .goWait] :=
  ⟨rfl,
    LaunchCollector_order envBusy9000 64 2 NewSyslogCollector _ (ctxWeb 9000 9001)
      World.empty _ _ rfl⟩


/-! ## File-size conversion -/

/-- Wrapping leaves a value that fits the word unchanged. -/
theorem wrapInt_of_range (bits : Nat) (x : Int) (hb : 0 < bits)
    (hlo : -(2 : Int) ^ (bits - 1) ≤ x) (hhi : x < 2 ^ (bits - 1)) :
    wrapInt bits x = x := by
  obtain ⟨k, rfl⟩ : ∃ k, bits = k + 1 := ⟨bits - 1, by omega⟩
  simp only [Nat.add_sub_cancel] at hlo hhi
  unfold wrapInt
  simp only [Nat.add_sub_cancel]
  have hp : (2 : Int) ^ (k + 1) = 2 ^ k * 2 := pow_succ 2 k
  rw [hp, Int.emod_eq_of_lt (by omega) (by omega)]
  omega

/-- Wrapping after each multiplication is wrapping the exact product once. -/
theorem wrapInt_mul (bits : Nat) (x c : Int) :
    wrapInt bits (wrapInt bits x * c) = wrapInt bits (x * c) := by
  unfold wrapInt
  have h1 : (x + 2 ^ (bits - 1)) % 2 ^ bits ≡ x + 2 ^ (bits - 1) [ZMOD 2 ^ bits] :=
    Int.mod_modEq _ _
  have h2 : ((x + 2 ^ (bits - 1)) % 2 ^ bits - 2 ^ (bits - 1)) * c + 2 ^ (bits - 1)
      ≡ (x + 2 ^ (bits - 1) - 2 ^ (bits - 1)) * c + 2 ^ (bits - 1) [ZMOD 2 ^ bits] :=
    ((h1.sub_right _).mul_right c).add_right _
  have h3 : ((x + 2 ^ (bits - 1)) % 2 ^ bits - 2 ^ (bits - 1)) * c + 2 ^ (bits - 1)
      ≡ x * c + 2 ^ (bits - 1) [ZMOD 2 ^ bits] := by
    simpa using h2
  rw [h3.eq]

/-- The size handed to the sink constructor by any launch that returns is
`logFileSize` of the configured `MaxFileSizeMB`. -/
theorem LaunchCollector_sink_size (env : Env) (bits fuel : Nat) (s s1 : SyslogCollector)
    (ctx : LogCollectorContext) (w w1 : World) (r : Except GoError SyslogCollectorState)
    (h : LaunchCollector env bits fuel s ctx w = some (r, s1, w1)) :
    ∃ added : List Event, w1.trace = w.trace ++ added ∧
      ∀ path file maxFiles size ok, Event.newLogRotator path file maxFiles size ok ∈ added →
        size = logFileSize bits ctx.LogConfig.MaxFileSizeMB := by
  obtain ⟨ra, w0, hs⟩ := LaunchCollector_scan env bits fuel s s1 ctx w w1 _ h
  obtain ⟨_, evs, ht, hscan⟩ := getFreePortLoop_returns env bits ctx.PortUpperBound fuel
    ctx.PortLowerBound w ra w0 hs
  have hno : ∀ path file maxFiles size ok,
      Event.newLogRotator path file maxFiles size ok ∉ evs := by
    intro path file maxFiles size ok hm
    have := hscan _ hm
    simp [Event.isScan] at this
  cases ra with
  | error e0 =>
    rw [LaunchCollector_of_scan_error env bits fuel s ctx w w0 e0 hs] at h
    simp only [Option.some.injEq, Prod.mk.injEq] at h
    obtain ⟨_, _, rfl⟩ := h
    exact ⟨evs, ht, fun p f m sz ok hm => absurd hm (hno p f m sz ok)⟩
  | ok addr =>
    cases hdir : ctx.AllocDir.TaskDirs.lookup ctx.TaskName with
    | none =>
      rw [LaunchCollector_of_unknown_task env bits fuel s ctx w w0 addr hs hdir] at h
      simp only [Option.some.injEq, Prod.mk.injEq] at h
      obtain ⟨_, _, rfl⟩ := h
      exact ⟨evs, ht, fun p f m sz ok hm => absurd hm (hno p f m sz ok)⟩
    | some dir =>
      rw [LaunchCollector_of_known_task env bits fuel s ctx w w0 addr dir hs hdir] at h
      obtain ⟨ok0, htr, _, _, _⟩ := serverListenTCP_spec env addr.addrString ⟨[], false⟩ w0
      cases hb : env.boot with
      | some e1 =>
        simp only [hb, Option.some.injEq, Prod.mk.injEq] at h
        obtain ⟨_, _, rfl⟩ := h
        refine ⟨evs ++ [.serverListen addr.addrString ok0, .serverBoot false], ?_, ?_⟩
        · simp [World.emit, htr, ht]
        · intro p f m sz ok hm
          simp only [List.mem_append, List.mem_cons, List.mem_singleton, List.not_mem_nil,
            or_false] at hm
          rcases hm with hm | hm | hm
          · exact absurd hm (hno p f m sz ok)
          · cases hm
          · cases hm
      | none =>
        simp only [hb] at h
        cases hn : env.newLogRotator (filepathJoin dir TaskLocal) (ctx.TaskName ++ ".stdout")
            ctx.LogConfig.MaxFiles (logFileSize bits ctx.LogConfig.MaxFileSizeMB) with
        | some e2 =>
          simp only [hn, Option.some.injEq, Prod.mk.injEq] at h
          obtain ⟨_, _, rfl⟩ := h
          refine ⟨evs ++ [.serverListen addr.addrString ok0, .serverBoot true, .pipe,
            .newLogRotator (filepathJoin dir TaskLocal) (ctx.TaskName ++ ".stdout")
              ctx.LogConfig.MaxFiles (logFileSize bits ctx.LogConfig.MaxFileSizeMB) false],
            ?_, ?_⟩
          · simp [htr, ht]
          · intro p f m sz ok hm
            simp only [List.mem_append, List.mem_cons, List.mem_singleton, List.not_mem_nil,
              or_false] at hm
            rcases hm with hm | hm | hm | hm | hm
            · exact absurd hm (hno p f m sz ok)
            · cases hm
            · cases hm
            · cases hm
            · cases hm; rfl
        | none =>
          simp only [hn, Option.some.injEq, Prod.mk.injEq] at h
          obtain ⟨_, _, rfl⟩ := h
          refine ⟨evs ++ [.serverListen addr.addrString ok0, .serverBoot true, .pipe,
            .newLogRotator (filepathJoin dir TaskLocal) (ctx.TaskName ++ ".stdout")
              ctx.LogConfig.MaxFiles (logFileSize bits ctx.LogConfig.MaxFileSizeMB) true,
            .goSink, .goPump, .goWait], ?_, ?_⟩
          · simp [htr, ht]
          · intro p f m sz ok hm
            simp only [List.mem_append, List.mem_cons, List.mem_singleton, List.not_mem_nil,
              or_false] at hm
            rcases hm with hm | hm | hm | hm | hm | hm | hm | hm
            · exact absurd hm (hno p f m sz ok)
            · cases hm
            · cases hm
            · cases hm
            · cases hm; rfl
            · cases hm
            · cases hm
            · cases hm


/-- C6 as stated fails: with `MaxFileSizeMB = 2^43` on a 64-bit platform the
exact product is 2^63, but the size `LaunchCollector` hands to the sink
constructor has wrapped to -2^63; on a 32-bit platform 2048 MB wraps the same
way to -2^31. Nothing rejects or clamps the value. -/
theorem logFileSize_exact_counterexample :
    (∀ fuel, (LaunchCollector envBusy9000 64 (fuel + 2) NewSyslogCollector
        (ctxHugeFile 9000 9001) World.empty).map (fun r => (r.1, r.2.2.trace))
      = some (.ok { Addr := "127.0.0.1:9001" },
          [.resolve 9000 true, .listen (loopback 9000) false, .resolve 9001 true,
            .listen (loopback 9001) true, .close (loopback 9001),
            .serverListen "127.0.0.1:9001" true, .serverBoot true, .pipe,
            .newLogRotator "/alloc/web/local" "web.stdout" 10 (-9223372036854775808) true,
            .goSink, .goPump, .goWait])) ∧
    (ctxHugeFile 9000 9001).LogConfig.MaxFileSizeMB * 1024 * 1024 = 9223372036854775808 ∧
    logFileSize 64 (ctxHugeFile 9000 9001).LogConfig.MaxFileSizeMB = -9223372036854775808 ∧
    logFileSize 32 2048 = -2147483648 := by
  refine ⟨fun fuel => ?_, by decide, by decide, by decide⟩
  rw [LaunchCollector_of_known_task envBusy9000 64 (fuel + 2) NewSyslogCollector
    (ctxHugeFile 9000 9001) World.empty _ (loopback 9001) "/alloc/web"
    (scan_busy9000 envBusy9000 rfl rfl fuel) (by decide)]
  rfl

/-- C6, amended: when the exact product `MaxFileSizeMB * 1024 * 1024` fits the
Go `int` of the platform (a word of 1 to 64 bits), the conversion yields
exactly that product, and it is the size every launch that reaches the sink
constructor hands to it. Larger values are neither rejected nor clamped. -/
theorem logFileSize_exact (env : Env) (bits fuel : Nat) (s s1 : SyslogCollector)
    (ctx : LogCollectorContext) (w w1 : World) (r : Except GoError SyslogCollectorState)
    (hb : 0 < bits) (hb64 : bits ≤ 64)
    (hlo : -(2 : Int) ^ (bits - 1) ≤ ctx.LogConfig.MaxFileSizeMB * 1024 * 1024)
    (hhi : ctx.LogConfig.MaxFileSizeMB * 1024 * 1024 < 2 ^ (bits - 1))
    (h : LaunchCollector env bits fuel s ctx w = some (r, s1, w1)) :
    logFileSize bits ctx.LogConfig.MaxFileSizeMB = ctx.LogConfig.MaxFileSizeMB * 1024 * 1024 ∧
    ∃ added : List Event, w1.trace = w.trace ++ added ∧
      ∀ path file maxFiles size ok, Event.newLogRotator path file maxFiles size ok ∈ added →
        size = ctx.LogConfig.MaxFileSizeMB * 1024 * 1024 := by
  have hsize : logFileSize bits ctx.LogConfig.MaxFileSizeMB
      = ctx.LogConfig.MaxFileSizeMB * 1024 * 1024 := by
    unfold logFileSize
    rw [wrapInt_mul, wrapInt_of_range bits _ hb hlo hhi]
    have hmono : (2 : Int) ^ (bits - 1) ≤ 2 ^ (64 - 1) :=
      pow_le_pow_right₀ (by norm_num) (by omega)
    exact wrapInt_of_range 64 _ (by norm_num) (by omega) (by omega)
  obtain ⟨added, ht, hadd⟩ := LaunchCollector_sink_size env bits fuel s s1 ctx w w1 r h
  exact ⟨hsize, added, ht, fun p f m sz ok hm => (hadd p f m sz ok hm).trans hsize⟩

/-- C6, amended, at a maximum file size of 10 MB on a 64-bit platform. -/
theorem logFileSize_exact_witness :
    ((0 < 64 ∧ 64 ≤ 64) ∧
      (-(2 : Int) ^ (64 - 1) ≤ (ctxWeb 9000 9001).LogConfig.MaxFileSizeMB * 1024 * 1024 ∧
        (ctxWeb 9000 9001).LogConfig.MaxFileSizeMB * 1024 * 1024 < 2 ^ (64 - 1)) ∧
      LaunchCollector envBusy9000 64 2 NewSyslogCollector (ctxWeb 9000 9001) World.empty
        = some (.ok { Addr := "127.0.0.1:9001" },
            { ctx := some (ctxWeb 9000 9001), taskDir := "/alloc/web",
              server := some { listeners := [loopback 9001], booted := true } },
            ⟨[.pipe, .listener (loopback 9001)],
              [.resolve 9000 true, .listen (loopback 9000) false, .resolve 9001 true,
                .listen (loopback 9001) true, .close (loopback 9001),
                .serverListen "127.0.0.1:9001" true, .serverBoot true, .pipe,
                .newLogRotator "/alloc/web/local" "web.stdout" 10 10485760 true,
                .goSink, .goPump, .goWait]⟩)) ∧
    (logFileSize 64 (ctxWeb 9000 9001).LogConfig.MaxFileSizeMB
        = (ctxWeb 9000 9001).LogConfig.MaxFileSizeMB * 1024 * 1024 ∧
      ∃ added : List Event,
        [.resolve 9000 true, .listen (loopback 9000) false, .resolve 9001 true,
          .listen (loopback 9001) true, .close (loopback 9001),
          .serverListen "127.0.0.1:9001" true, .serverBoot true, .pipe,
          .newLogRotator "/alloc/web/local" "web.stdout" 10 10485760 true,
          .goSink, .goPump, .goWait] = World.empty.trace ++ added ∧
        ∀ path file maxFiles size ok,
          Event.newLogRotator path file maxFiles size ok ∈ added →
          size = (ctxWeb 9000 9001).LogConfig.MaxFileSizeMB * 1024 * 1024) :=
  ⟨⟨⟨by decide, by decide⟩, ⟨by decide, by decide⟩, rfl⟩,
    logFileSize_exact envBusy9000 64 2 NewSyslogCollector _ (ctxWeb 9000 9001) World.empty _ _
      (by decide) (by decide) (by decide) (by decide) rfl⟩

/-! ## Bridge pump -/

/-- Well-formed records at the head of the channel are written one by one. -/
theorem bridgePump_wellformed_head (good : List LogParts)
    (hgood : ∀ r ∈ good, hasTextContent r = true) :
    ∀ (tail : List LogParts) (writes : List (List Byte)),
      bridgePump (good ++ tail) writes = bridgePump tail (writes ++ good.map contentOf) := by
  induction good with
  | nil => intro tail writes; simp
  | cons r rs ih =>
    intro tail writes
    have hr : hasTextContent r = true := hgood r (List.mem_cons_self _ _)
    have hrs : ∀ r' ∈ rs, hasTextContent r' = true :=
      fun r' h' => hgood r' (List.mem_cons_of_mem _ h')
    unfold hasTextContent at hr
    cases hl : List.lookup "content" r with
    | none => simp [hl] at hr
    | some v =>
      cases v with
      | str message =>
        have hstep : bridgePump (r :: (rs ++ tail)) writes
            = bridgePump (rs ++ tail) (writes ++ [message]) := by
          simp only [bridgePump, hl]
        have hc : contentOf r = message := by
          simp only [contentOf, hl]
        rw [List.cons_append, hstep, ih hrs tail (writes ++ [message]), List.map_cons, hc]
        simp
      | int n => simp [hl] at hr
      | bytes b => simp [hl] at hr
      | nil => simp [hl] at hr

/-- C4: for every finite sequence of records that each carry a textual
`content` field, the pump makes one write per record, with that record's
content, in arrival order, and then ends with the channel; the bytes that went
into the pipe are the contents back to back. -/
theorem bridgePump_wellformed (records : List LogParts)
    (h : ∀ r ∈ records, hasTextContent r = true) :
    bridgePump records [] = .drained (records.map contentOf) ∧
    (bridgePump records []).bytes = (records.map contentOf).flatten := by
  have hp := bridgePump_wellformed_head records h [] []
  simp only [List.append_nil, List.nil_append] at hp
  rw [hp]
  exact ⟨rfl, rfl⟩

/-- C4 at the two records `hello` and `world`: the pipe receives `hello\nworld\n`. -/
theorem bridgePump_wellformed_witness :
    (∀ r ∈ [textRecord "hello\n", textRecord "world\n"], hasTextContent r = true) ∧
    (bridgePump [textRecord "hello\n", textRecord "world\n"] []
        = .drained ([textRecord "hello\n", textRecord "world\n"].map contentOf) ∧
      (bridgePump [textRecord "hello\n", textRecord "world\n"] []).bytes
        = ([textRecord "hello\n", textRecord "world\n"].map contentOf).flatten) ∧
    ([textRecord "hello\n", textRecord "world\n"].map contentOf).flatten
      = goString "hello\nworld\n" :=
  ⟨by decide, bridgePump_wellformed [textRecord "hello\n", textRecord "world\n"] (by decide),
    by decide⟩

/-- C5 as stated fails: a record without `content` between two well-formed
records makes the type assertion fail; the pump ends there, and the content of
the well-formed record that follows is never written. A non-textual `content`
does the same. -/
theorem bridgePump_malformed_counterexample :
    hasTextContent severityRecord = false ∧
    bridgePump [textRecord "hello\n", severityRecord, textRecord "world\n"] []
      = .panicked [goString "hello\n"] ∧
    hasTextContent numericRecord = false ∧
    bridgePump [numericRecord, textRecord "world\n"] [] = .panicked [] :=
  ⟨by decide, by decide, by decide, by decide⟩

/-- C5, amended: for every sequence of records, the contents of the
well-formed records that precede the first record lacking a textual `content`
are written to the pipe, in order; at that record the type assertion fails and
the pump ends, so nothing that follows it is written. -/
theorem bridgePump_stops_at_malformed (good rest : List LogParts) (bad : LogParts)
    (hgood : ∀ r ∈ good, hasTextContent r = true) (hbad : hasTextContent bad = false) :
    bridgePump (good ++ bad :: rest) [] = .panicked (good.map contentOf) ∧
    (bridgePump (good ++ bad :: rest) []).bytes = (good.map contentOf).flatten := by
  have hp := bridgePump_wellformed_head good hgood (bad :: rest) []
  simp only [List.nil_append] at hp
  have hstop : bridgePump (bad :: rest) (good.map contentOf)
      = .panicked (good.map contentOf) := by
    unfold hasTextContent at hbad
    cases hl : List.lookup "content" bad with
    | none => simp [bridgePump, hl]
    | some v =>
      cases v with
      | str message => simp [hl] at hbad
      | int n => simp [bridgePump, hl]
      | bytes b => simp [bridgePump, hl]
      | nil => simp [bridgePump, hl]
  rw [hp, hstop]
  exact ⟨rfl, rfl⟩

/-- C5, amended, at `hello`, a record without content, `world`. -/
theorem bridgePump_stops_at_malformed_witness :
    ((∀ r ∈ [textRecord "hello\n"], hasTextContent r = true) ∧
      hasTextContent severityRecord = false) ∧
    (bridgePump ([textRecord "hello\n"] ++ severityRecord :: [textRecord "world\n"]) []
        = .panicked ([textRecord "hello\n"].map contentOf) ∧
      (bridgePump ([textRecord "hello\n"] ++ severityRecord :: [textRecord "world\n"]) []).bytes
        = ([textRecord "hello\n"].map contentOf).flatten) :=
  ⟨⟨by decide, by decide⟩,
    bridgePump_stops_at_malformed [textRecord "hello\n"] [textRecord "world\n"] severityRecord
      (by decide) (by decide)⟩

end Syslog
